import Mathlib

/-!
Office2PDF: a verification development.

A shallow embedding of `main.go` of Office2PDF: the path classifier
(`getFilePaths`), the PDF path deriver (`getPdfPath`), the three per-file
conversion functions, the three family converters and the orchestrator
(`main`), together with the Go library functions they call (`errors`,
`strings`, `path/filepath`) and a model of the automation host they drive.

Go strings are modelled by their character sequences (`List Char`); every
character the code inspects (the path separators, the dot, the tilde) is
ASCII, so byte-wise and character-wise reading agree on them.
-/

set_option autoImplicit false

namespace Office2PDF

/-- A Go string that the program inspects: its sequence of characters. -/
abbrev GoString := List Char

/-! ## Go errors (`errors`, `fmt.Errorf`) -/

/-- Go error values as the program builds and receives them. -/
inductive GoError where
  /-- The value of `errors.New(text)`. -/
  | new (text : String)
  /-- An error handed back by go-ole or by the operating system. -/
  | host (text : String)
  /-- The value of `fmt.Errorf` with one `%w` verb; `text` is the formatted message. -/
  | wrapf (text : String) (inner : GoError)
  /-- The value of `errors.Join` over the listed non-nil errors. -/
  | join (errs : List GoError)
deriving Repr

mutual
/-- The `Error()` method. -/
def GoError.Error : GoError → String
  | .new t => t
  | .host t => t
  | .wrapf t _ => t
  | .join errs => GoError.joinText errs
/-- The body of `(*joinError).Error`: the messages separated by newlines. -/
def GoError.joinText : List GoError → String
  | [] => ""
  | e :: es =>
    match es with
    | [] => e.Error
    | _ :: _ => e.Error ++ "\n" ++ GoError.joinText es
end

mutual
/-- Go's `==` on two error values. Identity of the pointers is modelled by
equality of what they point to. -/
def GoError.same : GoError → GoError → Bool
  | .new a, .new b => a == b
  | .host a, .host b => a == b
  | .wrapf a x, .wrapf b y => a == b && GoError.same x y
  | .join xs, .join ys => GoError.sameAll xs ys
  | _, _ => false
/-- Pointwise `GoError.same`. -/
def GoError.sameAll : List GoError → List GoError → Bool
  | [], [] => true
  | x :: xs, y :: ys => GoError.same x y && GoError.sameAll xs ys
  | _, _ => false
end

mutual
/-- The function `errors.Is(err, target)` for non-nil arguments: `err == target`, or the
same for what `Unwrap` yields (one error for `fmt.Errorf`, a list for
`errors.Join`). -/
def errorsIs : GoError → GoError → Bool
  | .new t, target => GoError.same (.new t) target
  | .host t, target => GoError.same (.host t) target
  | .wrapf t inner, target => GoError.same (.wrapf t inner) target || errorsIs inner target
  | .join errs, target => GoError.same (.join errs) target || errorsIsAny errs target
/-- The loop of `errors.Is` over `Unwrap() []error`. -/
def errorsIsAny : List GoError → GoError → Bool
  | [], _ => false
  | e :: es, target => errorsIs e target || errorsIsAny es target
end

/-- The function `errors.Is(err, target)` where `err` may be nil (and `target` is not). -/
def errorsIsOpt (err : Option GoError) (target : GoError) : Bool :=
  match err with
  | none => false
  | some e => errorsIs e target

/-- The function `errors.Join(errs...)`: nil when every argument is nil, otherwise a
join of the non-nil arguments in order. -/
def errorsJoin (errs : List (Option GoError)) : Option GoError :=
  match errs.filterMap id with
  | [] => none
  | e :: es => some (.join (e :: es))

/-- The call `fmt.Errorf("%w: %s", w, s)`. -/
def fmtErrorfW (w : GoError) (s : String) : GoError :=
  .wrapf (w.Error ++ ": " ++ s) w

/-- The sentinel `ErrOpenFile`. -/
def ErrOpenFile : GoError := .new "ファイルのオープンに失敗しました。"

/-- The sentinel `ErrConvertPdf`. -/
def ErrConvertPdf : GoError := .new "PDFファイルへの変換に失敗しました。"

/-- An error message carries the text `s` when `s` occurs in it. -/
def carriesText (e : GoError) (s : String) : Prop :=
  ∃ pre post : List Char, e.Error.data = pre ++ s.data ++ post

/-! ## `strings` and `path/filepath` -/

/-- The function `strings.HasPrefix(s, p)`. -/
def startsWith (s p : GoString) : Bool := p.isPrefixOf s

/-- The parts of `path/filepath` that depend on the operating system. -/
structure PathOS where
  /-- The predicate `os.IsPathSeparator`. -/
  isPathSeparator : Char → Bool
  /-- The constant `filepath.Separator`. -/
  Separator : Char
  /-- The length of `filepath.VolumeName(path)`. -/
  volumeNameLen : GoString → Nat
  /-- The function `filepath.Join(dir, name)`. -/
  Join : GoString → GoString → GoString

/-- The backward scan of `filepath.Ext`: `before` holds `path[0..i]` reversed,
`after` holds `path[i+1:]`. -/
def extScan (isSep : Char → Bool) : List Char → List Char → List Char
  | [], _ => []
  | c :: before, after =>
    if isSep c then []
    else if c = '.' then c :: after
    else extScan isSep before (c :: after)

/-- The function `filepath.Ext(path)`: the suffix starting at the last dot of the last path element,
empty when that element has no dot. -/
def Ext (os : PathOS) (path : GoString) : GoString :=
  extScan os.isPathSeparator path.reverse []

/-- The function `filepath.Base(path)`. -/
def Base (os : PathOS) (path : GoString) : GoString :=
  if path = [] then ['.']
  else
    -- strip trailing separators
    let p1 := (path.reverse.dropWhile os.isPathSeparator).reverse
    -- throw away the volume name
    let p2 := p1.drop (os.volumeNameLen p1)
    -- keep what follows the last separator
    let p3 := (p2.reverse.takeWhile (fun c => !os.isPathSeparator c)).reverse
    if p3 = [] then [os.Separator] else p3

/-- Splits a path at each `/`. -/
def splitSlash : List Char → List (List Char)
  | [] => [[]]
  | c :: cs =>
    match splitSlash cs with
    | [] => [[]]
    | e :: es => if c = '/' then [] :: e :: es else (c :: e) :: es

/-- The element loop of `filepath.Clean`: `out` is the stack of elements written so far,
innermost first. -/
def cleanElems (rooted : Bool) : List (List Char) → List (List Char) → List (List Char)
  | [], out => out
  | el :: els, out =>
    if el = [] ∨ el = ['.'] then cleanElems rooted els out
    else if el = ['.', '.'] then
      match out with
      | top :: below =>
        if top = ['.', '.'] then cleanElems rooted els (el :: out)
        else cleanElems rooted els below
      | [] => if rooted then cleanElems rooted els [] else cleanElems rooted els [el]
    else cleanElems rooted els (el :: out)

/-- The function `filepath.Clean` for `/`-separated paths without volume names. -/
def cleanSlash (path : GoString) : GoString :=
  let rooted := path.head? = some '/'
  let body := List.intercalate ['/'] (cleanElems rooted (splitSlash path) []).reverse
  let out := if rooted then '/' :: body else body
  if out = [] then ['.'] else out

/-- The `/`-separated instance of `path/filepath`. -/
def slashOS : PathOS where
  isPathSeparator := fun c => c = '/'
  Separator := '/'
  volumeNameLen := fun _ => 0
  Join := fun dir name =>
    if dir = [] then (if name = [] then [] else cleanSlash name)
    else cleanSlash (dir ++ '/' :: name)

/-! ## The directory walk (`filepath.Walk`) -/

/-- What the callback reads from `os.FileInfo`. -/
structure FileInfo where
  /-- The method `info.Name()`. -/
  Name : GoString
  /-- The method `info.IsDir()`. -/
  IsDir : Bool
deriving DecidableEq, Repr

/-- A directory tree as `filepath.Walk` sees it. -/
inductive FsNode where
  /-- An entry that `Lstat` reports as not being a directory. -/
  | file (name : GoString)
  /-- A directory: the error of reading its entries, if any, and its entries in the
  order `readDirNames` lists them. -/
  | dir (name : GoString) (readErr : Option GoError) (entries : List FsNode)
  /-- An entry on which `Lstat` fails. -/
  | broken (name : GoString) (err : GoError)

/-- The name under which the parent directory lists a node. -/
def FsNode.name : FsNode → GoString
  | .file n => n
  | .dir n _ _ => n
  | .broken n _ => n

/-- One call of the walk callback `fn(path, info, err)`. -/
inductive WalkEntry where
  /-- The callback gets a file info, and for a directory the error of reading it. -/
  | visit (path : GoString) (info : FileInfo) (err : Option GoError)
  /-- The call `fn(path, nil, err)` after a failed `Lstat`. -/
  | failed (path : GoString) (err : GoError)

/-- The path argument of a callback call. -/
def WalkEntry.path : WalkEntry → GoString
  | .visit p _ _ => p
  | .failed p _ => p

mutual
/-- The calls `filepath.Walk` makes below `path`, in order, as long as the callback
returns nil: the node itself, then (for a readable directory) each entry at
`Join(path, name)`. -/
def walkEntries (os : PathOS) : GoString → FsNode → List WalkEntry
  | path, .file name => [.visit path ⟨name, false⟩ none]
  | path, .broken _ err => [.failed path err]
  | path, .dir name readErr entries =>
    .visit path ⟨name, true⟩ readErr ::
      (match readErr with
       | some _ => []
       | none => walkChildren os path entries)
/-- The loop of `walk` over the names of a directory. -/
def walkChildren (os : PathOS) : GoString → List FsNode → List WalkEntry
  | _, [] => []
  | path, c :: cs => walkEntries os (os.Join path c.name) c ++ walkChildren os path cs
end

/-- The function `filepath.Walk` for a callback that returns nil or an error (never `SkipDir`):
the callback runs on each entry in turn and the first error ends the walk. -/
def Walk {σ : Type} (fn : σ → WalkEntry → σ × Option GoError) : List WalkEntry → σ → σ × Option GoError
  | [], s => (s, none)
  | e :: es, s =>
    match fn s e with
    | (s1, some err) => (s1, some err)
    | (s1, none) => Walk fn es s1

/-! ## The path classifier and the PDF path deriver (`main.go`) -/

/-- The three slices the callback of `getFilePaths` appends to. -/
structure Buckets where
  xslPaths : List GoString
  docPaths : List GoString
  pptPaths : List GoString
deriving DecidableEq, Repr

/-- The callback that `getFilePaths` hands to `filepath.Walk`. -/
def getFilePathsFn (os : PathOS) (b : Buckets) : WalkEntry → Buckets × Option GoError
  | .failed _ err => (b, some err)
  | .visit _ _ (some err) => (b, some err)
  | .visit path info none =>
    if !info.IsDir || startsWith (Base os path) "~".toList then
      let ext := Ext os info.Name
      if ext = ".xlsx".toList ∨ ext = ".xls".toList then
        ({ b with xslPaths := b.xslPaths ++ [path] }, none)
      else if ext = ".docx".toList ∨ ext = "doc".toList then
        ({ b with docPaths := b.docPaths ++ [path] }, none)
      else if ext = ".pptx".toList ∨ ext = ".ppt".toList then
        ({ b with pptPaths := b.pptPaths ++ [path] }, none)
      else (b, none)
    else (b, none)

/-- The function `getFilePaths(folderPath)`, on the tree `root` found at `folderPath`. -/
def getFilePaths (os : PathOS) (folderPath : GoString) (root : FsNode) :
    Except GoError (List GoString × List GoString × List GoString) :=
  match Walk (getFilePathsFn os) (walkEntries os folderPath root) ⟨[], [], []⟩ with
  | (_, some err) => .error err
  | (b, none) => .ok (b.xslPaths, b.docPaths, b.pptPaths)

/-- The function `getPathWithoutExt(path)`: `path[:len(path)-len(filepath.Ext(path))]`. -/
def getPathWithoutExt (os : PathOS) (path : GoString) : GoString :=
  path.take (path.length - (Ext os path).length)

/-- The function `getPdfPath(path)`; `abs` is `filepath.Abs`. On failure Go returns two empty
strings next to the error; here only the error is returned. -/
def getPdfPath (os : PathOS) (abs : GoString → Except GoError GoString) (path : GoString) :
    Except GoError (GoString × GoString) :=
  let pdfPath := getPathWithoutExt os path ++ ".pdf".toList
  match abs pdfPath with
  | .error err => .error err
  | .ok pdfFullPath => .ok (pdfPath, pdfFullPath)

/-! ## The automation host -/

/-- The COM objects the program holds. An object stands for the one the host
handed out last under that role (the workbook just opened, its sheet number `i`). -/
inductive Obj where
  | app
  | workbooks
  | workbook
  | worksheets
  | worksheet (i : Nat)
  | activeSheet
  | documents
  | document
  | presentations
  | presentation
  | slides
  | pageSetup
  | printOptions
  | ranges
deriving DecidableEq, Repr

/-- An argument of a host call. -/
inductive Arg where
  | str (s : GoString)
  | int (n : Int)
  | bool (b : Bool)
  /-- The print range that `Ranges.Add` returned. -/
  | printRange
deriving DecidableEq, Repr

/-- A call that reaches COM or the host application. -/
inductive Event where
  /-- The call `ole.CoInitializeEx(0, ole.COINIT_MULTITHREADED)`. -/
  | coInitializeEx
  /-- The call `ole.CoUninitialize()`. -/
  | coUninit
  /-- The call `oleutil.CreateObject(progID)`. -/
  | createObject (progID : String)
  /-- The call `unknown.QueryInterface(ole.IID_IDispatch)`. -/
  | queryInterface
  /-- The calls `oleutil.GetProperty` and `oleutil.MustGetProperty`. -/
  | getProperty (o : Obj) (name : String) (args : List Arg)
  /-- The call `oleutil.CallMethod`. -/
  | callMethod (o : Obj) (name : String) (args : List Arg)
  /-- The call `oleutil.PutProperty`. -/
  | putProperty (o : Obj) (name : String) (args : List Arg)
  /-- The call `Release()` on an object. -/
  | release (o : Obj)
deriving DecidableEq, Repr

/-- What the host does for one sheet of a workbook. -/
structure Worksheet where
  /-- The property `Name`. -/
  Name : GoString
  /-- The error of `Select(false)`, if it fails. -/
  selectErr : Option GoError

/-- What the host does for one opened workbook. A nil error means the call succeeds.
The host answers the `MustGetProperty` calls (`Count`, `Worksheets(i)`, `Name`),
which would otherwise panic. -/
structure Workbook where
  /-- The sheets in ordinal order; the host reports their number as `Count`. -/
  sheets : List Worksheet
  /-- The error of `GetProperty(workbook, "Worksheets")`. -/
  worksheetsErr : Option GoError
  /-- The error of `GetProperty(workbook, "ActiveSheet")`. -/
  activeSheetErr : Option GoError
  /-- The error of `ExportAsFixedFormat` on the workbook. -/
  exportErr : Option GoError
  /-- The error of `ExportAsFixedFormat` on the active sheet. -/
  sheetExportErr : Option GoError
  /-- The error of `PutProperty(workbook, "Saved", true)`. -/
  savedErr : Option GoError
  /-- The error of `Close(false)`. -/
  closeErr : Option GoError

/-- What the host does for one opened Word document. -/
structure Document where
  /-- The error of `ExportAsFixedFormat`. -/
  exportErr : Option GoError
  /-- The error of `Close(false)`. -/
  closeErr : Option GoError

/-- What the host does for one opened presentation. The host answers the
`MustGetProperty` calls (`Count`, `FirstSlideNumber`). -/
structure Presentation where
  slidesErr : Option GoError
  /-- The property `Slides.Count`. -/
  Count : Int
  pageSetupErr : Option GoError
  /-- The property `PageSetup.FirstSlideNumber`. -/
  FirstSlideNumber : Int
  printOptionsErr : Option GoError
  rangesErr : Option GoError
  /-- The error of `Ranges.Add`. -/
  addErr : Option GoError
  exportErr : Option GoError
  savedErr : Option GoError
  closeErr : Option GoError

/-- What COM does when a session is started and quit. -/
structure AppHost where
  /-- The error of `ole.CoInitializeEx`. -/
  coInitErr : Option GoError
  /-- The error of `oleutil.CreateObject`. -/
  createErr : Option GoError
  /-- The error of `QueryInterface`. -/
  queryErr : Option GoError
  /-- The error of the method `Quit`. -/
  quitErr : Option GoError

/-- The Excel session: the error of the `Workbooks` property and what `Open` does with each path. -/
structure ExcelHost extends AppHost where
  workbooksErr : Option GoError
  openWorkbook : GoString → Except GoError Workbook

/-- The Word session. -/
structure WordHost extends AppHost where
  /-- The error of `PutProperty(wordApp, "Visible", false)`. -/
  visibleErr : Option GoError
  documentsErr : Option GoError
  openDocument : GoString → Except GoError Document

/-- The PowerPoint session. -/
structure PowerPointHost extends AppHost where
  presentationsErr : Option GoError
  openPresentation : GoString → Except GoError Presentation

/-- What a Go function with an `error` result and host calls yields: the returned error
(nil is `none`) and the calls it made, in order. -/
abbrev Run := Option GoError × List Event

/-- The body of a Go function before its deferred calls run: the value of the `return`
statement, the calls made so far, and the deferred calls in the order they will run
(the last registered first). -/
abbrev Body := Option GoError × List Event × List Event

/-- Function exit: the deferred calls run after the body. -/
def Body.run (b : Body) : Run := (b.1, b.2.1 ++ b.2.2)

/-- Arithmetic on Go's 64-bit `int`. -/
def wrapInt (n : Int) : Int := (n + 2 ^ 63) % 2 ^ 64 - 2 ^ 63

/-! ## The per-file conversion functions (`main.go`) -/

/-- The constant `MsoTriStateMsoFalse`. -/
def MsoTriStateMsoFalse : Int := 0

/-- The constant `MsoTriStateMsoTrue`. -/
def MsoTriStateMsoTrue : Int := -1

/-- The loop `for i := 1; i < sheetCount+1; i++` of `convertXlsxToPdf`, from ordinal `i`
over the sheets not yet visited. -/
def selectSheets (ig : GoString) : Nat → List Worksheet → Body
  | _, [] => (none, [], [])
  | i, ws :: rest =>
    -- worksheet = MustGetProperty(workbook, "Worksheets", i); defer worksheet.Release()
    -- name := MustGetProperty(worksheet, "Name")
    let t := [Event.getProperty .workbook "Worksheets" [.int (Int.ofNat i)],
              Event.getProperty (.worksheet i) "Name" []]
    let d := [Event.release (.worksheet i)]
    if startsWith ws.Name ig then
      -- continue
      let r := selectSheets ig (i + 1) rest
      (r.1, t ++ r.2.1, r.2.2 ++ d)
    else
      let t1 := t ++ [Event.callMethod (.worksheet i) "Select" [.bool false]]
      match ws.selectErr with
      | some err => (some err, t1, d)
      | none =>
        let r := selectSheets ig (i + 1) rest
        (r.1, t1 ++ r.2.1, r.2.2 ++ d)

/-- The end of `convertXlsxToPdf`: mark the workbook saved, close it. -/
def markSavedAndClose (wb : Workbook) : Run :=
  let t1 := [Event.putProperty .workbook "Saved" [.bool true]]
  match wb.savedErr with
  | some err => (some err, t1)
  | none =>
    let t2 := t1 ++ [Event.callMethod .workbook "Close" [.bool false]]
    match wb.closeErr with
    | some err => (some err, t2)
    | none => (none, t2)

/-- The arguments `0, pdfFilePath, 0, false, false` of the Excel export call. -/
def xlExportArgs (pdfFilePath : GoString) : List Arg :=
  [.int 0, .str pdfFilePath, .int 0, .bool false, .bool false]

/-- The body of `convertXlsxToPdf(excel, xlPath, pdfFilePath, ig)`. -/
def convertXlsxToPdfBody (h : ExcelHost) (xlPath pdfFilePath ig : GoString) : Body :=
  let t1 := [Event.getProperty .app "Workbooks" []]
  match h.workbooksErr with
  | some err => (some err, t1, [])
  | none =>
    -- defer workbooks.ToIDispatch().Release()
    let d1 := [Event.release .workbooks]
    let t2 := t1 ++ [Event.callMethod .workbooks "Open" [.str xlPath]]
    match h.openWorkbook xlPath with
    | .error err => (some err, t2, d1)
    | .ok wb =>
      -- defer workbook.ToIDispatch().Release()
      let d2 := Event.release .workbook :: d1
      if ig = [] then
        let t3 := t2 ++ [Event.callMethod .workbook "ExportAsFixedFormat" (xlExportArgs pdfFilePath)]
        match wb.exportErr with
        | some err => (some err, t3, d2)
        | none =>
          let r := markSavedAndClose wb
          (r.1, t3 ++ r.2, d2)
      else
        let t3 := t2 ++ [Event.getProperty .workbook "Worksheets" []]
        match wb.worksheetsErr with
        | some err => (some err, t3, d2)
        | none =>
          -- defer worksheets.ToIDispatch().Release()
          let d3 := Event.release .worksheets :: d2
          let t4 := t3 ++ [Event.getProperty .worksheets "Count" []]
          let loop := selectSheets ig 1 wb.sheets
          let t5 := t4 ++ loop.2.1
          let d4 := loop.2.2 ++ d3
          match loop.1 with
          | some err => (some err, t5, d4)
          | none =>
            let t6 := t5 ++ [Event.getProperty .workbook "ActiveSheet" []]
            match wb.activeSheetErr with
            | some err => (some err, t6, d4)
            | none =>
              -- defer activeSheet.ToIDispatch().Release()
              let d5 := Event.release .activeSheet :: d4
              let t7 := t6 ++ [Event.callMethod .activeSheet "ExportAsFixedFormat" (xlExportArgs pdfFilePath)]
              match wb.sheetExportErr with
              | some err => (some err, t7, d5)
              | none =>
                let r := markSavedAndClose wb
                (r.1, t7 ++ r.2, d5)

/-- The function `convertXlsxToPdf(excel, xlPath, pdfFilePath, ig)`. -/
def convertXlsxToPdf (h : ExcelHost) (xlPath pdfFilePath ig : GoString) : Run :=
  (convertXlsxToPdfBody h xlPath pdfFilePath ig).run

/-- The body of `convertDocxToPdf(word, dcPath, pdfFilePath)`. -/
def convertDocxToPdfBody (h : WordHost) (dcPath pdfFilePath : GoString) : Body :=
  let t1 := [Event.getProperty .app "documents" []]
  match h.documentsErr with
  | some err => (some err, t1, [])
  | none =>
    -- defer documents.ToIDispatch().Release()
    let d1 := [Event.release .documents]
    let t2 := t1 ++ [Event.callMethod .documents "Open" [.str dcPath]]
    match h.openDocument dcPath with
    | .error err => (some err, t2, d1)
    | .ok doc =>
      -- defer doc.ToIDispatch().Release()
      let d2 := Event.release .document :: d1
      let t3 := t2 ++ [Event.callMethod .document "ExportAsFixedFormat" [.str pdfFilePath, .int 17]]
      match doc.exportErr with
      | some err => (some err, t3, d2)
      | none =>
        let t4 := t3 ++ [Event.callMethod .document "Close" [.bool false]]
        match doc.closeErr with
        | some err => (some err, t4, d2)
        | none => (none, t4, d2)

/-- The function `convertDocxToPdf(word, dcPath, pdfFilePath)`. -/
def convertDocxToPdf (h : WordHost) (dcPath pdfFilePath : GoString) : Run :=
  (convertDocxToPdfBody h dcPath pdfFilePath).run

/-- The function `openPptFile(pres, path)`: the opened presentation or the wrapped error,
and the call made. -/
def openPptFile (h : PowerPointHost) (path : GoString) : Except GoError Presentation × List Event :=
  let t := [Event.callMethod .presentations "Open"
    [.str path, .int MsoTriStateMsoTrue, .int MsoTriStateMsoFalse, .int MsoTriStateMsoFalse]]
  match h.openPresentation path with
  | .error err => (.error (fmtErrorfW ErrOpenFile err.Error), t)
  | .ok ppt => (.ok ppt, t)

/-- The arguments of the PowerPoint export call. -/
def pptExportArgs (pdfFilePath : GoString) : List Arg :=
  [.str pdfFilePath, .int 2, .int 2, .int 0, .int 1, .int 1, .int 0, .printRange, .int 1, .str [],
   .bool false, .bool false, .bool false, .bool false, .bool false]

/-- The body of `convertPptxToPdf(powerpoint, pptPath, pdfFilePath)`. -/
def convertPptxToPdfBody (h : PowerPointHost) (pptPath pdfFilePath : GoString) : Body :=
  let t1 := [Event.getProperty .app "Presentations" []]
  match h.presentationsErr with
  | some err => (some err, t1, [])
  | none =>
    -- defer pres.ToIDispatch().Release()
    let d1 := [Event.release .presentations]
    let opened := openPptFile h pptPath
    let t2 := t1 ++ opened.2
    match opened.1 with
    | .error err => (some (fmtErrorfW ErrOpenFile err.Error), t2, d1)
    | .ok ppt =>
      -- defer ppt.Release()
      let d2 := Event.release .presentation :: d1
      let t3 := t2 ++ [Event.getProperty .presentation "Slides" []]
      match ppt.slidesErr with
      | some err => (some err, t3, d2)
      | none =>
        -- defer slides.ToIDispatch().Release()
        let d3 := Event.release .slides :: d2
        let count := ppt.Count
        let t4 := t3 ++ [Event.getProperty .slides "Count" [], Event.getProperty .presentation "PageSetup" []]
        match ppt.pageSetupErr with
        | some err => (some err, t4, d3)
        | none =>
          -- defer ps.ToIDispatch().Release()
          let d4 := Event.release .pageSetup :: d3
          let sp := ppt.FirstSlideNumber
          let t5 := t4 ++ [Event.getProperty .pageSetup "FirstSlideNumber" [],
                           Event.getProperty .presentation "PrintOptions" []]
          match ppt.printOptionsErr with
          | some err => (some err, t5, d4)
          | none =>
            -- defer po.ToIDispatch().Release()
            let d5 := Event.release .printOptions :: d4
            let t6 := t5 ++ [Event.getProperty .printOptions "Ranges" []]
            match ppt.rangesErr with
            | some err => (some err, t6, d5)
            | none =>
              -- defer r.ToIDispatch().Release()
              let d6 := Event.release .ranges :: d5
              let t7 := t6 ++ [Event.callMethod .ranges "Add"
                [.int sp, .int (wrapInt (count + wrapInt (sp - 1)))]]
              match ppt.addErr with
              | some err => (some err, t7, d6)
              | none =>
                let t8 := t7 ++ [Event.callMethod .presentation "ExportAsFixedFormat" (pptExportArgs pdfFilePath)]
                match ppt.exportErr with
                | some err => (some (fmtErrorfW ErrConvertPdf err.Error), t8, d6)
                | none =>
                  let t9 := t8 ++ [Event.putProperty .presentation "Saved" [.bool true]]
                  match ppt.savedErr with
                  | some err => (some err, t9, d6)
                  | none =>
                    let t10 := t9 ++ [Event.callMethod .presentation "Close" []]
                    match ppt.closeErr with
                    | some err => (some err, t10, d6)
                    | none => (none, t10, d6)

/-- The function `convertPptxToPdf(powerpoint, pptPath, pdfFilePath)`. -/
def convertPptxToPdf (h : PowerPointHost) (pptPath pdfFilePath : GoString) : Run :=
  (convertPptxToPdfBody h pptPath pdfFilePath).run

/-! ## The family converters (`main.go`) -/

/-- The functions `createExcelApp`, `createWordApp`, `createPowerPointApp`:
`oleutil.CreateObject(progID)`, then `QueryInterface`. -/
def createApp (progID : String) (h : AppHost) : Run :=
  let t1 := [Event.createObject progID]
  match h.createErr with
  | some err => (some err, t1)
  | none =>
    let t2 := t1 ++ [Event.queryInterface]
    match h.queryErr with
    | some err => (some err, t2)
    | none => (none, t2)

/-- The deferred closure of a family converter, applied to the value the `return`
statement gave `rErr`: after `Quit`, `if err != nil { rErr = errors.Join(rErr, err) }`. -/
def quitDeferred (quitErr : Option GoError) (rErr : Option GoError) : Option GoError :=
  match quitErr with
  | some err => errorsJoin [rErr, some err]
  | none => rErr

/-- The loop `for _, path := range files` that the three family converters share, with
the per-file conversion function as `conv`. The result is the operand of the `return`
statement that ends the loop (or of the `return nil` after it) and the calls made. -/
def convertLoop (os : PathOS) (abs : GoString → Except GoError GoString)
    (conv : GoString → GoString → Run) : List GoString → Run
  | [] => (none, [])
  | path :: rest =>
    -- fullpath, err := filepath.Abs(path)
    match abs path with
    | .error err => (some err, [])
    | .ok fullpath =>
      -- pdfPath, pdfFullPath, err := getPdfPath(path)
      match getPdfPath os abs path with
      | .error err => (some err, [])
      | .ok (_, pdfFullPath) =>
        -- here err == nil
        let err : Option GoError := none
        -- rErr = conv(app, fullpath, pdfFullPath)
        let r := conv fullpath pdfFullPath
        match r.1 with
        | some _ =>
          -- return err
          (err, r.2)
        | none =>
          let next := convertLoop os abs conv rest
          (next.1, r.2 ++ next.2)

/-- The function `convertExcelFileToPdf(files, ig)`. -/
def convertExcelFileToPdf (os : PathOS) (abs : GoString → Except GoError GoString)
    (h : ExcelHost) (files : List GoString) (ig : GoString) : Run :=
  if files.length = 0 then (none, [])
  else
    let t1 := [Event.coInitializeEx]
    match h.coInitErr with
    | some err => (some err, t1)
    | none =>
      -- defer ole.CoUninitialize()
      let d1 := [Event.coUninit]
      let app := createApp "Excel.Application" h.toAppHost
      let t2 := t1 ++ app.2
      match app.1 with
      | some rErr => (some rErr, t2 ++ d1)
      | none =>
        -- defer excelApp.Release(); defer func() ... Quit
        let d2 := Event.callMethod .app "Quit" [] :: Event.release .app :: d1
        let loop := convertLoop os abs (fun fullpath pdfFullPath => convertXlsxToPdf h fullpath pdfFullPath ig) files
        (quitDeferred h.quitErr loop.1, t2 ++ loop.2 ++ d2)

/-- The function `convertWordFileToPdf(files)`. -/
def convertWordFileToPdf (os : PathOS) (abs : GoString → Except GoError GoString)
    (h : WordHost) (files : List GoString) : Run :=
  if files.length = 0 then (none, [])
  else
    let t1 := [Event.coInitializeEx]
    match h.coInitErr with
    | some err => (some err, t1)
    | none =>
      -- defer ole.CoUninitialize()
      let d1 := [Event.coUninit]
      let app := createApp "Word.Application" h.toAppHost
      let t2 := t1 ++ app.2
      match app.1 with
      | some rErr => (some rErr, t2 ++ d1)
      | none =>
        -- defer wordApp.Release(); defer func() ... Quit
        let d2 := Event.callMethod .app "Quit" [] :: Event.release .app :: d1
        let t3 := t2 ++ [Event.putProperty .app "Visible" [.bool false]]
        match h.visibleErr with
        | some err => (quitDeferred h.quitErr (some err), t3 ++ d2)
        | none =>
          let loop := convertLoop os abs (convertDocxToPdf h) files
          (quitDeferred h.quitErr loop.1, t3 ++ loop.2 ++ d2)

/-- The function `convertPptFileToPdf(files)`. -/
def convertPptFileToPdf (os : PathOS) (abs : GoString → Except GoError GoString)
    (h : PowerPointHost) (files : List GoString) : Run :=
  if files.length = 0 then (none, [])
  else
    let t1 := [Event.coInitializeEx]
    match h.coInitErr with
    | some err => (some err, t1)
    | none =>
      -- defer ole.CoUninitialize()
      let d1 := [Event.coUninit]
      let app := createApp "PowerPoint.Application" h.toAppHost
      let t2 := t1 ++ app.2
      match app.1 with
      | some rErr => (some rErr, t2 ++ d1)
      | none =>
        -- defer pptApp.Release(); defer func() ... Quit
        let d2 := Event.callMethod .app "Quit" [] :: Event.release .app :: d1
        let loop := convertLoop os abs (convertPptxToPdf h) files
        (quitDeferred h.quitErr loop.1, t2 ++ loop.2 ++ d2)

/-! ## The orchestrator (`main.go`) -/

/-- What a run of `main` does: the exit code of the process, the run of each family
converter that was called (`none` when it was not), and the errors sent on `errChan`. -/
structure MainResult where
  exitCode : Nat
  excel : Option Run
  word : Option Run
  ppt : Option Run
  errChan : List GoError

/-- The function `main`: `osArgs` is `os.Args`; `ignore` and `args` are the value of the `-g` flag
and `flag.Args()` after `flag.Parse()`; `fs` gives the tree found at a path. Each
family converter drives its own session, so the three goroutines are run one after
the other; `errChan` lists what they send in the order excel, word, ppt. -/
def main (os : PathOS) (abs : GoString → Except GoError GoString) (fs : GoString → FsNode)
    (excel : ExcelHost) (word : WordHost) (ppt : PowerPointHost)
    (osArgs : List GoString) (ignore : GoString) (args : List GoString) : MainResult :=
  if osArgs.length < 2 then ⟨1, none, none, none, []⟩
  else
    match args with
    | [] => ⟨1, none, none, none, []⟩
    | targetPath :: _ =>
      match getFilePaths os targetPath (fs targetPath) with
      | .error _ => ⟨1, none, none, none, []⟩
      | .ok (xlsPaths, docPaths, pptPaths) =>
        if xlsPaths.length = 0 ∧ docPaths.length = 0 ∧ pptPaths.length = 0 then
          -- return
          ⟨0, none, none, none, []⟩
        else
          let r1 := convertExcelFileToPdf os abs excel xlsPaths ignore
          let r2 := convertWordFileToPdf os abs word docPaths
          let r3 := convertPptFileToPdf os abs ppt pptPaths
          let errChan := [r1.1, r2.1, r3.1].filterMap id
          -- flag stays true exactly when errChan yields nothing
          let exitCode := if errChan.length = 0 then 0 else 1
          ⟨exitCode, some r1, some r2, some r3, errChan⟩

/-! ## Auxiliary definitions for the statements -/

/-- The three document families. -/
inductive Family where
  | spreadsheet
  | wordProcessor
  | presentation
deriving DecidableEq, Repr

/-- The bucket to which the callback of `getFilePaths` appends the path of an entry, if any. -/
def bucketOf (os : PathOS) : WalkEntry → Option Family
  | .failed _ _ => none
  | .visit _ _ (some _) => none
  | .visit path info none =>
    if !info.IsDir || startsWith (Base os path) "~".toList then
      let ext := Ext os info.Name
      if ext = ".xlsx".toList ∨ ext = ".xls".toList then some .spreadsheet
      else if ext = ".docx".toList ∨ ext = "doc".toList then some .wordProcessor
      else if ext = ".pptx".toList ∨ ext = ".ppt".toList then some .presentation
      else none
    else none

/-- The paths of the entries that go to the bucket of family `f`, in walk order. -/
def pathsOf (os : PathOS) (f : Family) (entries : List WalkEntry) : List GoString :=
  (entries.filter (fun e => bucketOf os e = some f)).map WalkEntry.path

/-- Appends a path to the bucket of a family. -/
def Buckets.add (b : Buckets) : Option Family → GoString → Buckets
  | none, _ => b
  | some .spreadsheet, p => { b with xslPaths := b.xslPaths ++ [p] }
  | some .wordProcessor, p => { b with docPaths := b.docPaths ++ [p] }
  | some .presentation, p => { b with pptPaths := b.pptPaths ++ [p] }

/-- An entry on which the callback of `getFilePaths` returns nil: one that comes with no error. -/
def WalkEntry.clean : WalkEntry → Bool
  | .visit _ _ none => true
  | _ => false

/-- The conversion call the loop of a family converter issues for `path`; `none` when
`filepath.Abs` fails on the path or on its PDF path, so that no conversion is called. -/
def attempt (os : PathOS) (abs : GoString → Except GoError GoString)
    (conv : GoString → GoString → Run) (path : GoString) : Option Run :=
  match abs path with
  | .error _ => none
  | .ok fullpath =>
    match getPdfPath os abs path with
    | .error _ => none
    | .ok (_, pdfFullPath) => some (conv fullpath pdfFullPath)

/-- The host calls of the conversion of `path`. -/
def attemptEvents (os : PathOS) (abs : GoString → Except GoError GoString)
    (conv : GoString → GoString → Run) (path : GoString) : List Event :=
  match attempt os abs conv path with
  | some r => r.2
  | none => []

/-- The conversion of the file at index `i` is the first to fail, with error `e`: the
conversions of the files before it return nil. -/
def firstFailureAt (os : PathOS) (abs : GoString → Except GoError GoString)
    (conv : GoString → GoString → Run) (files : List GoString) (i : Nat) (e : GoError) : Prop :=
  (∀ p ∈ files.take i, ∃ t, attempt os abs conv p = some (none, t)) ∧
  ∃ q t, files.get? i = some q ∧ attempt os abs conv q = some (some e, t)

/-- The session of a family starts: COM initialises and the application object is created. -/
def sessionStarts (h : AppHost) : Prop :=
  h.coInitErr = none ∧ h.createErr = none ∧ h.queryErr = none

/-- The calls that start the session of the application `progID`. -/
def startEvents (progID : String) : List Event :=
  [.coInitializeEx, .createObject progID, .queryInterface]

/-- The deferred calls that end a session: `Quit`, `Release`, `CoUninitialize`. -/
def teardownEvents : List Event :=
  [.callMethod .app "Quit" [], .release .app, .coUninit]

/-- The ordinal of the sheet a call selects, when it is a `Select` call on a sheet. -/
def selectedOrdinal : Event → Option Nat
  | .callMethod (.worksheet i) name _ => if name = "Select" then some i else none
  | _ => none

/-- The ordinals of the sheets on which a run issues `Select`, in the order of the calls. -/
def selectedOrdinals (events : List Event) : List Nat :=
  events.filterMap selectedOrdinal

/-- A run issues a `Select` call on some object. -/
def issuesSelect (events : List Event) : Prop :=
  ∃ o args, Event.callMethod o "Select" args ∈ events

/-- The path a call opens, when it is an `Open` call. -/
def openedPath : Event → Option GoString
  | .callMethod _ name (.str p :: _) => if name = "Open" then some p else none
  | _ => none

/-- The sheets of a workbook whose name does not start with `ig`, each with its 1-based
ordinal, in ordinal order. -/
def includedSheets (ig : GoString) (sheets : List Worksheet) : List (Nat × Worksheet) :=
  (sheets.enumFrom 1).filter (fun iw => !startsWith iw.2.Name ig)

/-- The paths passed to the `Open` calls of a run, in the order of the calls. -/
def openedPaths (events : List Event) : List GoString :=
  events.filterMap openedPath

/-- The calls of a family run are those of one session in which exactly the first `k` files
of the bucket are converted, each conversion complete before the next one, in bucket order:
the calls in `start`, then the calls of the conversions of `files[0..k-1]` in that order,
then the deferred `Quit`, `Release` and `CoUninitialize`. -/
def convertsFirst (os : PathOS) (abs : GoString → Except GoError GoString)
    (conv : GoString → GoString → Run) (start : List Event) (files : List GoString) (k : Nat)
    (events : List Event) : Prop :=
  events = start ++ (files.take k).flatMap (attemptEvents os abs conv) ++ teardownEvents

/-- Every path a run opens is the absolute path of one of the first `k` files of the bucket. -/
def opensOnlyFirst (abs : GoString → Except GoError GoString) (files : List GoString) (k : Nat)
    (events : List Event) : Prop :=
  ∀ p ∈ openedPaths events, ∃ q ∈ files.take k, abs q = .ok p

/-- The calls that start the Word session: those of `startEvents`, then hiding the window. -/
def wordStartEvents : List Event :=
  startEvents "Word.Application" ++ [Event.putProperty .app "Visible" [.bool false]]

/-- The export call `convertXlsxToPdf` issues on the active sheet. -/
def activeSheetExport (pdfFilePath : GoString) : Event :=
  .callMethod .activeSheet "ExportAsFixedFormat" (xlExportArgs pdfFilePath)

/-- The sheets from ordinal `i` on whose name does not start with `ig`, with their ordinals. -/
def includedFrom (ig : GoString) (i : Nat) (sheets : List Worksheet) : List (Nat × Worksheet) :=
  (sheets.enumFrom i).filter (fun iw => !startsWith iw.2.Name ig)

/-- The path separators of the operating system are among `/` and the backslash, as on
every system Go supports. -/
def separatorsAreSlashes (os : PathOS) : Prop :=
  ∀ c, os.isPathSeparator c = true → c = '/' ∨ c = Char.ofNat 92

/-- An extension that a case label of `getFilePaths` matches. -/
def recognizedExt (ext : GoString) : Prop :=
  ext = ".xlsx".toList ∨ ext = ".xls".toList ∨ ext = ".docx".toList ∨ ext = "doc".toList ∨
    ext = ".pptx".toList ∨ ext = ".ppt".toList

/-- A buffered Go channel of errors: its capacity and the values it holds. -/
structure ErrChan where
  cap : Nat
  buf : List GoError

/-- The call `make(chan error, n)`. -/
def makeChan (n : Nat) : ErrChan := ⟨n, []⟩

/-- A send `errChan <- err` while no goroutine receives (`main` receives only after
`wg.Wait()` and `close`): it proceeds when the buffer has room and blocks otherwise (`none`). -/
def ErrChan.send (c : ErrChan) (err : GoError) : Option ErrChan :=
  if c.buf.length < c.cap then some { c with buf := c.buf ++ [err] } else none

/-- The sends of the goroutines, in the order in which the scheduler lets them happen;
`none` when one of them blocks. -/
def ErrChan.sendAll : ErrChan → List GoError → Option ErrChan
  | c, [] => some c
  | c, err :: rest =>
    match c.send err with
    | none => none
    | some c1 => c1.sendAll rest

/-- The capacity `main` gives `errChan`: `len(xlsPaths) + len(docPaths) + len(pptPaths)`. -/
def errChanCapacity (xlsPaths docPaths pptPaths : List GoString) : Nat :=
  xlsPaths.length + docPaths.length + pptPaths.length

/-- The number of buckets that are not empty. -/
def nonEmptyBuckets (xlsPaths docPaths pptPaths : List GoString) : Nat :=
  (if xlsPaths = [] then 0 else 1) + (if docPaths = [] then 0 else 1) +
    (if pptPaths = [] then 0 else 1)

/-- The errors the three goroutines of `main` send on `errChan`, listed in the order
excel, word, ppt: each goroutine sends what its converter returns, when that is not nil. -/
def goroutineSends (os : PathOS) (abs : GoString → Except GoError GoString)
    (excel : ExcelHost) (word : WordHost) (ppt : PowerPointHost)
    (xlsPaths docPaths pptPaths : List GoString) (ignore : GoString) : List GoError :=
  [(convertExcelFileToPdf os abs excel xlsPaths ignore).1,
   (convertWordFileToPdf os abs word docPaths).1,
   (convertPptFileToPdf os abs ppt pptPaths).1].filterMap id

/-- The number of errors a goroutine sends for the result of its converter: one when the
result is not nil. -/
def sendCount (rErr : Option GoError) : Nat :=
  match rErr with
  | some _ => 1
  | none => 0

/-! ### The host's side of the sheet selection -/

/-- What the host holds for an opened workbook while `convertXlsxToPdf` runs: the ordinals of
the sheets that are selected, and the PDF files written so far, each with the ordinals of the
sheets it renders. -/
structure SheetHost where
  selected : List Nat
  written : List (GoString × List Nat)
deriving DecidableEq, Repr

/-- The selection extended by the sheet of ordinal `i`. -/
def extendSelection (selected : List Nat) (i : Nat) : List Nat :=
  if i ∈ selected then selected else selected ++ [i]

/-- The host carries out `Select` on the sheet of ordinal `i`: the sheet exists and the call
does not fail. -/
def selectSucceeds (wb : Workbook) (i : Nat) : Bool :=
  match wb.sheets.get? (i - 1) with
  | some ws => 1 ≤ i && ws.selectErr.isNone
  | none => false

/-- The host's side of one call on the opened workbook `wb` (spec 4.3 step 4 and the host
contract of spec 6). A successful `Select(replace)` on a sheet replaces the selection by that
sheet when `replace` is true and extends the selection by that sheet when it is false. A
successful `ExportAsFixedFormat(0, path, ...)` (type 0 is PDF) writes `path`: called on the
active sheet it renders the selected sheets, called on the workbook it renders every sheet.
Every other call leaves the selection and the files as they are. -/
def SheetHost.step (wb : Workbook) (s : SheetHost) : Event → SheetHost
  | .callMethod (.worksheet i) name [.bool replace] =>
    if name = "Select" ∧ selectSucceeds wb i = true then
      { s with selected := if replace then [i] else extendSelection s.selected i }
    else s
  | .callMethod .activeSheet name (.int 0 :: .str path :: _) =>
    if name = "ExportAsFixedFormat" ∧ wb.sheetExportErr.isNone = true then
      { s with written := s.written ++ [(path, s.selected)] }
    else s
  | .callMethod .workbook name (.int 0 :: .str path :: _) =>
    if name = "ExportAsFixedFormat" ∧ wb.exportErr.isNone = true then
      { s with written := s.written ++ [(path, List.range' 1 wb.sheets.length)] }
    else s
  | _ => s

/-- The host after the calls of a run on the workbook `wb`, when `selected0` are the sheets
the host has selected once it has opened the workbook (in Excel, the sheets that were
selected when the workbook was saved). -/
def hostAfter (wb : Workbook) (selected0 : List Nat) (events : List Event) : SheetHost :=
  events.foldl (SheetHost.step wb) ⟨selected0, []⟩

/-- The ordinals of the sheets of a workbook whose name starts with `ig`. -/
def prefixedOrdinals (ig : GoString) (sheets : List Worksheet) : List Nat :=
  ((sheets.enumFrom 1).filter (fun iw => startsWith iw.2.Name ig)).map Prod.fst

/-! ### Sample inputs -/

/-- The function `filepath.Abs` for `/`-separated paths in the working directory `wd`. -/
def absIn (wd : GoString) (path : GoString) : Except GoError GoString :=
  if path.head? = some '/' then .ok (cleanSlash path) else .ok (slashOS.Join wd path)

/-- A COM layer in which every session call succeeds. -/
def okApp : AppHost := ⟨none, none, none, none⟩

/-- A workbook with the given sheet names on which every call succeeds. -/
def okWorkbook (names : List GoString) : Workbook :=
  ⟨names.map (fun n => ⟨n, none⟩), none, none, none, none, none, none⟩

/-- A presentation of three slides numbered from 1 on which every call succeeds. -/
def okPresentation : Presentation :=
  ⟨none, 3, none, 1, none, none, none, none, none, none⟩

/-- An Excel session in which every `Open` fails. -/
def excelOpenFails (quitErr : Option GoError) : ExcelHost :=
  ⟨⟨none, none, none, quitErr⟩, none, fun _ => .error (.host "cannot open")⟩

/-- An Excel session in which every export fails. -/
def excelExportFails : ExcelHost :=
  ⟨okApp, none, fun _ =>
    .ok ⟨[⟨"Data".toList, none⟩], none, none, some (.host "cannot export"),
      some (.host "cannot export"), none, none⟩⟩

/-- An Excel session in which every workbook has the sheets Data, _Hidden, Summary and
every call succeeds. -/
def excelOk : ExcelHost :=
  ⟨okApp, none, fun _ => .ok (okWorkbook ["Data".toList, "_Hidden".toList, "Summary".toList])⟩

/-- An Excel session in which `second.xlsx` fails to open and every other workbook converts. -/
def excelSecondFails : ExcelHost :=
  ⟨okApp, none, fun p =>
    if p = "/w/second.xlsx".toList then .error (.host "cannot open")
    else .ok (okWorkbook ["Data".toList])⟩

/-- A Word session in which every `Open` fails. -/
def wordOpenFails (quitErr : Option GoError) : WordHost :=
  ⟨⟨none, none, none, quitErr⟩, none, none, fun _ => .error (.host "cannot open")⟩

/-- A Word session in which every export fails. -/
def wordExportFails : WordHost :=
  ⟨okApp, none, none, fun _ => .ok ⟨some (.host "cannot export"), none⟩⟩

/-- A Word session in which every call succeeds. -/
def wordOk : WordHost := ⟨okApp, none, none, fun _ => .ok ⟨none, none⟩⟩

/-- A PowerPoint session in which every `Open` fails. -/
def pptOpenFails (quitErr : Option GoError) : PowerPointHost :=
  ⟨⟨none, none, none, quitErr⟩, none, fun _ => .error (.host "cannot open")⟩

/-- A PowerPoint session in which every export fails. -/
def pptExportFails : PowerPointHost :=
  ⟨okApp, none, fun _ => .ok { okPresentation with exportErr := some (.host "cannot export") }⟩

/-- A PowerPoint session in which every call succeeds. -/
def pptOk : PowerPointHost := ⟨okApp, none, fun _ => .ok okPresentation⟩

/-- A target folder `docs` that holds the single file `book.xlsx`. -/
def oneWorkbookTree : FsNode := .dir "docs".toList none [.file "book.xlsx".toList]

/-- A target folder `docs` that holds only files of other kinds. -/
def noTargetTree : FsNode :=
  .dir "docs".toList none [.file "notes.txt".toList, .dir "sub".toList none [.file "a.pdf".toList]]

/-- A target folder `root` that holds `a.docx`, `b.doc` and `c.txt`. -/
def wordTree : FsNode :=
  .dir "root".toList none [.file "a.docx".toList, .file "b.doc".toList, .file "c.txt".toList]

/-- An Excel session in which every conversion succeeds and `Quit` fails. -/
def excelQuitFails : ExcelHost :=
  ⟨⟨none, none, none, some (.host "excel cannot quit")⟩, none,
    fun _ => .ok (okWorkbook ["Data".toList])⟩

/-- A Word session in which every conversion succeeds and `Quit` fails. -/
def wordQuitFails : WordHost :=
  ⟨⟨none, none, none, some (.host "word cannot quit")⟩, none, none, fun _ => .ok ⟨none, none⟩⟩

/-- A PowerPoint session in which every conversion succeeds and `Quit` fails. -/
def pptQuitFails : PowerPointHost :=
  ⟨⟨none, none, none, some (.host "powerpoint cannot quit")⟩, none, fun _ => .ok okPresentation⟩

/-- A target folder `docs` that holds one file of each family. -/
def mixedTree : FsNode :=
  .dir "docs".toList none [.file "a.docx".toList, .file "b.xlsx".toList, .file "c.pptx".toList]

/-- An Excel session in which every workbook has the two sheets _A and _B and every call
succeeds. -/
def excelAllPrefixed : ExcelHost :=
  ⟨okApp, none, fun _ => .ok (okWorkbook ["_A".toList, "_B".toList])⟩

/-! ## Theorems -/

theorem extScan_suffix (isSep : Char → Bool) (before after : List Char) :
    ∃ pre, pre ++ extScan isSep before after = before.reverse ++ after := by
  induction before generalizing after with
  | nil => exact ⟨after, by simp [extScan]⟩
  | cons c before ih =>
    unfold extScan
    by_cases hs : isSep c = true
    · exact ⟨(c :: before).reverse ++ after, by simp [hs]⟩
    · by_cases hd : c = '.'
      · subst hd
        exact ⟨before.reverse, by simp_all⟩
      · obtain ⟨pre, hpre⟩ := ih (c :: after)
        exact ⟨pre, by simp [hs, hd, hpre]⟩

theorem Ext_suffix (os : PathOS) (p : GoString) : ∃ stem, stem ++ Ext os p = p := by
  obtain ⟨pre, hpre⟩ := extScan_suffix os.isPathSeparator p.reverse []
  exact ⟨pre, by simpa [Ext] using hpre⟩

theorem getPathWithoutExt_append (os : PathOS) (stem p : GoString) (h : stem ++ Ext os p = p) :
    getPathWithoutExt os p = stem := by
  unfold getPathWithoutExt
  have hlen : p.length - (Ext os p).length = stem.length := by
    have := congrArg List.length h
    simp at this
    omega
  rw [hlen]
  conv_lhs => rw [← h]
  simp

/-- C4: for every path `p`, `getPdfPath(p)` splits `p` as `stem ++ filepath.Ext(p)`, and
returns `stem ++ ".pdf"` as the relative result together with `filepath.Abs` of that same
path as the absolute result; it fails exactly when that `filepath.Abs` call fails, with
its error. For `a/b/report.xlsx` the relative result is `a/b/report.pdf`. -/
theorem getPdfPath_replaces_extension (os : PathOS) (abs : GoString → Except GoError GoString)
    (p : GoString) :
    (∃ stem, stem ++ Ext os p = p ∧
      getPdfPath os abs p =
        (match abs (stem ++ ".pdf".toList) with
         | .ok a => .ok (stem ++ ".pdf".toList, a)
         | .error e => .error e) ∧
      ((∃ e, getPdfPath os abs p = .error e) ↔ ∃ e, abs (stem ++ ".pdf".toList) = .error e)) ∧
    getPdfPath slashOS abs "a/b/report.xlsx".toList =
      (match abs "a/b/report.pdf".toList with
       | .ok a => .ok ("a/b/report.pdf".toList, a)
       | .error e => .error e) := by
  refine ⟨?_, ?_⟩
  · obtain ⟨stem, hstem⟩ := Ext_suffix os p
    refine ⟨stem, hstem, ?_, ?_⟩
    · simp only [getPdfPath, getPathWithoutExt_append os stem p hstem]
      cases abs (stem ++ ".pdf".toList) <;> rfl
    · simp only [getPdfPath, getPathWithoutExt_append os stem p hstem]
      cases abs (stem ++ ".pdf".toList) <;> simp
  · have h : getPathWithoutExt slashOS "a/b/report.xlsx".toList = "a/b/report".toList := by decide
    have h2 : "a/b/report".toList ++ ".pdf".toList = "a/b/report.pdf".toList := by decide
    simp only [getPdfPath, h, h2]
    cases abs "a/b/report.pdf".toList <;> rfl

theorem getFilePathsFn_clean (os : PathOS) (b : Buckets) (e : WalkEntry) (h : e.clean = true) :
    getFilePathsFn os b e = (b.add (bucketOf os e) e.path, none) := by
  cases e with
  | failed p err => simp [WalkEntry.clean] at h
  | visit p info err =>
    cases err with
    | some err => simp [WalkEntry.clean] at h
    | none =>
      simp only [getFilePathsFn, bucketOf, WalkEntry.path]
      split_ifs <;> rfl

theorem getFilePathsFn_not_clean (os : PathOS) (b : Buckets) (e : WalkEntry) (h : e.clean = false) :
    ∃ err, getFilePathsFn os b e = (b, some err) := by
  cases e with
  | failed p err => exact ⟨err, rfl⟩
  | visit p info err =>
    cases err with
    | some err => exact ⟨err, rfl⟩
    | none => simp [WalkEntry.clean] at h

theorem Buckets.add_xslPaths (os : PathOS) (b : Buckets) (e : WalkEntry) :
    (b.add (bucketOf os e) e.path).xslPaths = b.xslPaths ++ pathsOf os .spreadsheet [e] ∧
    (b.add (bucketOf os e) e.path).docPaths = b.docPaths ++ pathsOf os .wordProcessor [e] ∧
    (b.add (bucketOf os e) e.path).pptPaths = b.pptPaths ++ pathsOf os .presentation [e] := by
  cases hb : bucketOf os e with
  | none => simp [Buckets.add, pathsOf, hb]
  | some f => cases f <;> simp [Buckets.add, pathsOf, hb]

theorem pathsOf_cons (os : PathOS) (f : Family) (e : WalkEntry) (es : List WalkEntry) :
    pathsOf os f (e :: es) = pathsOf os f [e] ++ pathsOf os f es := by
  simp only [pathsOf]
  by_cases h : bucketOf os e = some f <;> simp [List.filter_cons, h]

theorem Walk_getFilePathsFn (os : PathOS) (entries : List WalkEntry) (b b1 : Buckets)
    (h : Walk (getFilePathsFn os) entries b = (b1, none)) :
    (∀ e ∈ entries, e.clean = true) ∧
    b1.xslPaths = b.xslPaths ++ pathsOf os .spreadsheet entries ∧
    b1.docPaths = b.docPaths ++ pathsOf os .wordProcessor entries ∧
    b1.pptPaths = b.pptPaths ++ pathsOf os .presentation entries := by
  induction entries generalizing b with
  | nil =>
    simp only [Walk, Prod.mk.injEq, and_true] at h
    subst h
    simp [pathsOf]
  | cons e es ih =>
    cases hc : e.clean with
    | false =>
      obtain ⟨err, herr⟩ := getFilePathsFn_not_clean os b e hc
      simp [Walk, herr] at h
    | true =>
      have hfn := getFilePathsFn_clean os b e hc
      simp only [Walk, hfn] at h
      obtain ⟨hclean, hx, hd, hp⟩ := ih _ h
      obtain ⟨ax, ad, ap⟩ := Buckets.add_xslPaths os b e
      refine ⟨?_, ?_, ?_, ?_⟩
      · intro e1 he1
        rcases List.mem_cons.mp he1 with rfl | hmem
        · exact hc
        · exact hclean e1 hmem
      · rw [hx, ax, pathsOf_cons os _ e es, List.append_assoc]
      · rw [hd, ad, pathsOf_cons os _ e es, List.append_assoc]
      · rw [hp, ap, pathsOf_cons os _ e es, List.append_assoc]

theorem getFilePaths_ok (os : PathOS) (folderPath : GoString) (root : FsNode)
    (xls doc ppt : List GoString) (h : getFilePaths os folderPath root = .ok (xls, doc, ppt)) :
    (∀ e ∈ walkEntries os folderPath root, e.clean = true) ∧
    xls = pathsOf os .spreadsheet (walkEntries os folderPath root) ∧
    doc = pathsOf os .wordProcessor (walkEntries os folderPath root) ∧
    ppt = pathsOf os .presentation (walkEntries os folderPath root) := by
  unfold getFilePaths at h
  cases hw : Walk (getFilePathsFn os) (walkEntries os folderPath root) ⟨[], [], []⟩ with
  | mk b1 r =>
    rw [hw] at h
    cases r with
    | some err => simp at h
    | none =>
      simp only [Except.ok.injEq, Prod.mk.injEq] at h
      obtain ⟨h1, h2, h3⟩ := h
      obtain ⟨hclean, hx, hd, hp⟩ := Walk_getFilePathsFn os _ _ _ hw
      refine ⟨hclean, ?_, ?_, ?_⟩
      · rw [← h1, hx]; rfl
      · rw [← h2, hd]; rfl
      · rw [← h3, hp]; rfl

theorem mem_pathsOf (os : PathOS) (f : Family) (entries : List WalkEntry) (p : GoString) :
    p ∈ pathsOf os f entries ↔ ∃ e ∈ entries, bucketOf os e = some f ∧ e.path = p := by
  simp [pathsOf, and_assoc]

theorem pathsOf_sublist (os : PathOS) (f : Family) (entries : List WalkEntry) :
    (pathsOf os f entries).Sublist (entries.map WalkEntry.path) :=
  List.Sublist.map _ (List.filter_sublist _)

theorem not_mem_pathsOf_of_nodup (os : PathOS) (f g : Family) (entries : List WalkEntry)
    (e : WalkEntry) (he : e ∈ entries) (hf : bucketOf os e = some f) (hfg : f ≠ g)
    (hnd : (entries.map WalkEntry.path).Nodup) : e.path ∉ pathsOf os g entries := by
  intro hmem
  obtain ⟨e1, he1, hb1, hp1⟩ := (mem_pathsOf os g entries e.path).mp hmem
  have heq : e1 = e := List.inj_on_of_nodup_map hnd he1 he hp1
  subst heq
  rw [hf] at hb1
  exact hfg (Option.some.inj hb1)

/-- C2 (evaluation at the failing input): under `root`, the regular file `~$book.xlsx` and the
directory `~tmp.xls` both have a base name that starts with `~`, and `getFilePaths` puts
both paths into the spreadsheet bucket. -/
theorem getFilePaths_keeps_tilde_entries :
    getFilePaths slashOS "root".toList
      (.dir "root".toList none [.file "~$book.xlsx".toList, .dir "~tmp.xls".toList none []])
      = .ok (["root/~$book.xlsx".toList, "root/~tmp.xls".toList], [], []) ∧
    Base slashOS "root/~$book.xlsx".toList = "~$book.xlsx".toList ∧
    startsWith (Base slashOS "root/~$book.xlsx".toList) "~".toList = true ∧
    startsWith (Base slashOS "root/~tmp.xls".toList) "~".toList = true := by
  refine ⟨rfl, ?_, ?_, ?_⟩ <;> decide

/-- C3: when `getFilePaths` returns its buckets, every regular file the walk visited whose
extension is `.xlsx` or `.xls` is in the spreadsheet bucket, every regular file whose
extension is `.pptx` or `.ppt` is in the presentation bucket, and neither is in another
bucket (the walk visits no path twice); each bucket lists its paths in the order of the
walk. A root that holds only `test1.xlsx` and `test2.xlsx` gives the spreadsheet bucket
`[root/test1.xlsx, root/test2.xlsx]`. -/
theorem getFilePaths_buckets_by_extension (os : PathOS) (folderPath : GoString) (root : FsNode)
    (xls doc ppt : List GoString) (h : getFilePaths os folderPath root = .ok (xls, doc, ppt)) :
    (∀ path info err, WalkEntry.visit path info err ∈ walkEntries os folderPath root →
      info.IsDir = false →
      (Ext os info.Name = ".xlsx".toList ∨ Ext os info.Name = ".xls".toList) →
      path ∈ xls ∧
        (((walkEntries os folderPath root).map WalkEntry.path).Nodup → path ∉ doc ∧ path ∉ ppt)) ∧
    (∀ path info err, WalkEntry.visit path info err ∈ walkEntries os folderPath root →
      info.IsDir = false →
      (Ext os info.Name = ".pptx".toList ∨ Ext os info.Name = ".ppt".toList) →
      path ∈ ppt ∧
        (((walkEntries os folderPath root).map WalkEntry.path).Nodup → path ∉ xls ∧ path ∉ doc)) ∧
    xls.Sublist ((walkEntries os folderPath root).map WalkEntry.path) ∧
    doc.Sublist ((walkEntries os folderPath root).map WalkEntry.path) ∧
    ppt.Sublist ((walkEntries os folderPath root).map WalkEntry.path) ∧
    getFilePaths slashOS "root".toList
      (.dir "root".toList none [.file "test1.xlsx".toList, .file "test2.xlsx".toList])
      = .ok (["root/test1.xlsx".toList, "root/test2.xlsx".toList], [], []) := by
  obtain ⟨hclean, hx, hd, hp⟩ := getFilePaths_ok os folderPath root xls doc ppt h
  refine ⟨?_, ?_, ?_, ?_, ?_, rfl⟩
  · intro path info err hmem hdir hext
    have herr : err = none := by
      have := hclean _ hmem
      cases err with
      | none => rfl
      | some e => simp [WalkEntry.clean] at this
    subst herr
    have hb : bucketOf os (.visit path info none) = some .spreadsheet := by
      rcases hext with hext | hext <;>
        simp only [bucketOf, hdir, hext, Bool.not_false, Bool.true_or, if_true] <;> decide
    refine ⟨?_, fun hnd => ⟨?_, ?_⟩⟩
    · rw [hx]
      exact (mem_pathsOf os _ _ _).mpr ⟨_, hmem, hb, rfl⟩
    · rw [hd]
      exact not_mem_pathsOf_of_nodup os _ _ _ _ hmem hb (by decide) hnd
    · rw [hp]
      exact not_mem_pathsOf_of_nodup os _ _ _ _ hmem hb (by decide) hnd
  · intro path info err hmem hdir hext
    have herr : err = none := by
      have := hclean _ hmem
      cases err with
      | none => rfl
      | some e => simp [WalkEntry.clean] at this
    subst herr
    have hb : bucketOf os (.visit path info none) = some .presentation := by
      rcases hext with hext | hext <;>
        simp only [bucketOf, hdir, hext, Bool.not_false, Bool.true_or, if_true] <;> decide
    refine ⟨?_, fun hnd => ⟨?_, ?_⟩⟩
    · rw [hp]
      exact (mem_pathsOf os _ _ _).mpr ⟨_, hmem, hb, rfl⟩
    · rw [hx]
      exact not_mem_pathsOf_of_nodup os _ _ _ _ hmem hb (by decide) hnd
    · rw [hd]
      exact not_mem_pathsOf_of_nodup os _ _ _ _ hmem hb (by decide) hnd
  · rw [hx]; exact pathsOf_sublist os _ _
  · rw [hd]; exact pathsOf_sublist os _ _
  · rw [hp]; exact pathsOf_sublist os _ _

/-- C1 (evaluation at the failing input): the bucket holds one file and the host fails to open
it (or to export it), while `Quit` succeeds. The per-file conversion returns the error, yet
each family converter returns nil, and `main` run on a folder holding that one workbook
puts nothing on `errChan` and exits with code 0. -/
theorem family_converters_return_nil_after_failed_conversion :
    (convertXlsxToPdf (excelOpenFails none) "/w/book.xlsx".toList "/w/book.pdf".toList "_".toList).1
      = some (.host "cannot open") ∧
    (convertExcelFileToPdf slashOS (absIn "/w".toList) (excelOpenFails none)
      ["book.xlsx".toList] "_".toList).1 = none ∧
    (convertExcelFileToPdf slashOS (absIn "/w".toList) excelExportFails
      ["book.xlsx".toList] "_".toList).1 = none ∧
    (convertDocxToPdf (wordOpenFails none) "/w/a.docx".toList "/w/a.pdf".toList).1
      = some (.host "cannot open") ∧
    (convertWordFileToPdf slashOS (absIn "/w".toList) (wordOpenFails none) ["a.docx".toList]).1 = none ∧
    (convertPptxToPdf pptExportFails "/w/a.pptx".toList "/w/a.pdf".toList).1
      = some (fmtErrorfW ErrConvertPdf "cannot export") ∧
    (convertPptFileToPdf slashOS (absIn "/w".toList) pptExportFails ["a.pptx".toList]).1 = none ∧
    (main slashOS (absIn "/w".toList) (fun _ => oneWorkbookTree) (excelOpenFails none) wordOk pptOk
      ["Office2PDF.exe".toList, "docs".toList] "_".toList ["docs".toList]).exitCode = 0 ∧
    (main slashOS (absIn "/w".toList) (fun _ => oneWorkbookTree) (excelOpenFails none) wordOk pptOk
      ["Office2PDF.exe".toList, "docs".toList] "_".toList ["docs".toList]).errChan = [] := by
  refine ⟨rfl, rfl, rfl, rfl, rfl, rfl, rfl, rfl, rfl⟩

/-- C6 (evaluation at the failing input): the host fails to open the one file of the bucket
with error e1 and `Quit` then fails with error e2. Each family converter returns the join
of e2 alone: `errors.Is` holds for e2 and does not hold for e1. -/
theorem family_converters_lose_conversion_error_on_failed_quit :
    (convertExcelFileToPdf slashOS (absIn "/w".toList) (excelOpenFails (some (.host "cannot quit")))
      ["book.xlsx".toList] "_".toList).1 = some (.join [.host "cannot quit"]) ∧
    (convertWordFileToPdf slashOS (absIn "/w".toList) (wordOpenFails (some (.host "cannot quit")))
      ["a.docx".toList]).1 = some (.join [.host "cannot quit"]) ∧
    (convertPptFileToPdf slashOS (absIn "/w".toList) (pptOpenFails (some (.host "cannot quit")))
      ["a.pptx".toList]).1 = some (.join [.host "cannot quit"]) ∧
    (convertPptxToPdf (pptOpenFails (some (.host "cannot quit"))) "/w/a.pptx".toList "/w/a.pdf".toList).1
      = some (fmtErrorfW ErrOpenFile (fmtErrorfW ErrOpenFile "cannot open").Error) ∧
    errorsIs (.join [.host "cannot quit"]) (.host "cannot quit") = true ∧
    errorsIs (.join [.host "cannot quit"]) (.host "cannot open") = false ∧
    errorsIs (.join [.host "cannot quit"])
      (fmtErrorfW ErrOpenFile (fmtErrorfW ErrOpenFile "cannot open").Error) = false := by
  refine ⟨rfl, rfl, rfl, rfl, ?_, ?_, ?_⟩ <;> decide

/-- C8 (evaluation at the failing input): when the host fails to open or to export, `convertXlsxToPdf`
and `convertDocxToPdf` return the host error as it is, tagged neither as `ErrOpenFile` nor as
`ErrConvertPdf`, whereas `convertPptxToPdf` returns an error tagged `ErrOpenFile` for a failed
open and `ErrConvertPdf` for a failed export. -/
theorem only_convertPptxToPdf_tags_failures :
    ((convertXlsxToPdf (excelOpenFails none) "/w/book.xlsx".toList "/w/book.pdf".toList "_".toList).1
        = some (.host "cannot open") ∧
      errorsIs (.host "cannot open") ErrOpenFile = false) ∧
    ((convertXlsxToPdf excelExportFails "/w/book.xlsx".toList "/w/book.pdf".toList "_".toList).1
        = some (.host "cannot export") ∧
      (convertXlsxToPdf excelExportFails "/w/book.xlsx".toList "/w/book.pdf".toList []).1
        = some (.host "cannot export") ∧
      errorsIs (.host "cannot export") ErrConvertPdf = false) ∧
    ((convertDocxToPdf (wordOpenFails none) "/w/a.docx".toList "/w/a.pdf".toList).1
        = some (.host "cannot open") ∧
      (convertDocxToPdf wordExportFails "/w/a.docx".toList "/w/a.pdf".toList).1
        = some (.host "cannot export")) ∧
    (errorsIsOpt (convertPptxToPdf (pptOpenFails none) "/w/a.pptx".toList "/w/a.pdf".toList).1
        ErrOpenFile = true ∧
      errorsIsOpt (convertPptxToPdf (pptOpenFails none) "/w/a.pptx".toList "/w/a.pdf".toList).1
        ErrConvertPdf = false ∧
      errorsIsOpt (convertPptxToPdf pptExportFails "/w/a.pptx".toList "/w/a.pdf".toList).1
        ErrConvertPdf = true ∧
      errorsIsOpt (convertPptxToPdf pptExportFails "/w/a.pptx".toList "/w/a.pdf".toList).1
        ErrOpenFile = false) := by
  refine ⟨⟨rfl, ?_⟩, ⟨rfl, rfl, ?_⟩, ⟨rfl, rfl⟩, ⟨?_, ?_, ?_, ?_⟩⟩ <;> decide

/-- C9: for every workbook the host opens, with the empty exclusion prefix `convertXlsxToPdf` issues
`ExportAsFixedFormat` on the workbook itself right after `Open`, and issues no `Select` call
on any object (so no sheet is selected or skipped), whatever the sheets are. -/
theorem convertXlsxToPdf_empty_prefix_exports_workbook (h : ExcelHost) (xlPath pdfFilePath : GoString)
    (wb : Workbook) (hw : h.workbooksErr = none) (ho : h.openWorkbook xlPath = .ok wb) :
    (∃ rest, (convertXlsxToPdf h xlPath pdfFilePath []).2 =
      [Event.getProperty .app "Workbooks" [],
       Event.callMethod .workbooks "Open" [.str xlPath],
       Event.callMethod .workbook "ExportAsFixedFormat" (xlExportArgs pdfFilePath)] ++ rest) ∧
    ¬ issuesSelect (convertXlsxToPdf h xlPath pdfFilePath []).2 ∧
    selectedOrdinals (convertXlsxToPdf h xlPath pdfFilePath []).2 = [] ∧
    Event.callMethod .activeSheet "ExportAsFixedFormat" (xlExportArgs pdfFilePath)
      ∉ (convertXlsxToPdf h xlPath pdfFilePath []).2 := by
  unfold issuesSelect
  simp only [convertXlsxToPdf, convertXlsxToPdfBody, Body.run, hw, ho, if_true]
  cases wb.exportErr with
  | some err => simp [selectedOrdinals, selectedOrdinal, xlExportArgs]
  | none =>
    simp only [markSavedAndClose]
    cases wb.savedErr with
    | some err => simp [selectedOrdinals, selectedOrdinal, xlExportArgs]
    | none =>
      cases wb.closeErr with
      | some err => simp [selectedOrdinals, selectedOrdinal, xlExportArgs]
      | none => simp [selectedOrdinals, selectedOrdinal, xlExportArgs]

theorem convertXlsxToPdf_empty_prefix_exports_workbook_witness :
    excelOk.workbooksErr = none ∧
    (∃ rest, (convertXlsxToPdf excelOk "/w/book.xlsx".toList "/w/book.pdf".toList []).2 =
      [Event.getProperty .app "Workbooks" [],
       Event.callMethod .workbooks "Open" [.str "/w/book.xlsx".toList],
       Event.callMethod .workbook "ExportAsFixedFormat" (xlExportArgs "/w/book.pdf".toList)] ++ rest) ∧
    ¬ issuesSelect (convertXlsxToPdf excelOk "/w/book.xlsx".toList "/w/book.pdf".toList []).2 :=
  ⟨rfl,
   (convertXlsxToPdf_empty_prefix_exports_workbook excelOk "/w/book.xlsx".toList "/w/book.pdf".toList
      (okWorkbook ["Data".toList, "_Hidden".toList, "Summary".toList]) rfl rfl).1,
   (convertXlsxToPdf_empty_prefix_exports_workbook excelOk "/w/book.xlsx".toList "/w/book.pdf".toList
      (okWorkbook ["Data".toList, "_Hidden".toList, "Summary".toList]) rfl rfl).2.1⟩

/-- C10: on an empty bucket each family converter returns nil and makes no host call; and when
`getFilePaths` returns three empty buckets, `main` returns with exit code 0 without calling
any family converter. -/
theorem empty_buckets_start_no_session (os : PathOS) (abs : GoString → Except GoError GoString)
    (fs : GoString → FsNode) (excel : ExcelHost) (word : WordHost) (ppt : PowerPointHost)
    (osArgs : List GoString) (ignore ig targetPath : GoString) (rest : List GoString)
    (hargs : 2 ≤ osArgs.length)
    (hempty : getFilePaths os targetPath (fs targetPath) = .ok ([], [], [])) :
    convertExcelFileToPdf os abs excel [] ig = (none, []) ∧
    convertWordFileToPdf os abs word [] = (none, []) ∧
    convertPptFileToPdf os abs ppt [] = (none, []) ∧
    main os abs fs excel word ppt osArgs ignore (targetPath :: rest) = ⟨0, none, none, none, []⟩ := by
  refine ⟨rfl, rfl, rfl, ?_⟩
  have h2 : ¬ osArgs.length < 2 := by omega
  simp [main, h2, hempty]

theorem empty_buckets_start_no_session_witness :
    getFilePaths slashOS "docs".toList noTargetTree = .ok ([], [], []) ∧
    convertExcelFileToPdf slashOS (absIn "/w".toList) excelOk [] "_".toList = (none, []) ∧
    (main slashOS (absIn "/w".toList) (fun _ => noTargetTree) excelOk wordOk pptOk
      ["Office2PDF.exe".toList, "docs".toList] "_".toList ["docs".toList]).exitCode = 0 ∧
    (main slashOS (absIn "/w".toList) (fun _ => noTargetTree) excelOk wordOk pptOk
      ["Office2PDF.exe".toList, "docs".toList] "_".toList ["docs".toList]).excel = none :=
  have h := empty_buckets_start_no_session slashOS (absIn "/w".toList) (fun _ => noTargetTree)
    excelOk wordOk pptOk ["Office2PDF.exe".toList, "docs".toList] "_".toList "_".toList
    "docs".toList [] (by decide) rfl
  ⟨rfl, h.1, by rw [h.2.2.2], by rw [h.2.2.2]⟩

theorem getPdfPath_error (os : PathOS) (abs : GoString → Except GoError GoString)
    (path : GoString) (e : GoError) (h : getPdfPath os abs path = .error e) :
    ∃ q, abs q = .error e := by
  unfold getPdfPath at h
  dsimp only at h
  generalize getPathWithoutExt os path ++ ".pdf".toList = q at h
  cases hq : abs q with
  | error e1 =>
    simp only [hq, Except.error.injEq] at h
    exact ⟨q, by rw [hq, h]⟩
  | ok a => simp [hq] at h

theorem convertLoop_cons_ok (os : PathOS) (abs : GoString → Except GoError GoString)
    (conv : GoString → GoString → Run) (path : GoString) (rest : List GoString) (t : List Event)
    (h : attempt os abs conv path = some (none, t)) :
    convertLoop os abs conv (path :: rest) =
      ((convertLoop os abs conv rest).1, t ++ (convertLoop os abs conv rest).2) := by
  unfold attempt at h
  cases ha : abs path with
  | error err => simp [ha] at h
  | ok fullpath =>
    cases hp : getPdfPath os abs path with
    | error err => simp [ha, hp] at h
    | ok r =>
      obtain ⟨pdfPath, pdfFullPath⟩ := r
      simp only [ha, hp, Option.some.injEq] at h
      simp only [convertLoop, ha, hp, h]

theorem convertLoop_cons_fail (os : PathOS) (abs : GoString → Except GoError GoString)
    (conv : GoString → GoString → Run) (path : GoString) (rest : List GoString) (e : GoError)
    (t : List Event) (h : attempt os abs conv path = some (some e, t)) :
    convertLoop os abs conv (path :: rest) = (none, t) := by
  unfold attempt at h
  cases ha : abs path with
  | error err => simp [ha] at h
  | ok fullpath =>
    cases hp : getPdfPath os abs path with
    | error err => simp [ha, hp] at h
    | ok r =>
      obtain ⟨pdfPath, pdfFullPath⟩ := r
      simp only [ha, hp, Option.some.injEq] at h
      simp only [convertLoop, ha, hp, h]

theorem convertLoop_cons_unresolved (os : PathOS) (abs : GoString → Except GoError GoString)
    (conv : GoString → GoString → Run) (path : GoString) (rest : List GoString)
    (h : attempt os abs conv path = none) :
    ∃ err, convertLoop os abs conv (path :: rest) = (some err, []) := by
  unfold attempt at h
  cases ha : abs path with
  | error err => exact ⟨err, by simp only [convertLoop, ha]⟩
  | ok fullpath =>
    cases hp : getPdfPath os abs path with
    | error err => exact ⟨err, by simp only [convertLoop, ha, hp]⟩
    | ok r => simp [ha, hp] at h

theorem convertLoop_first_failure (os : PathOS) (abs : GoString → Except GoError GoString)
    (conv : GoString → GoString → Run) (files : List GoString) (i : Nat) (e : GoError)
    (h : firstFailureAt os abs conv files i e) :
    convertLoop os abs conv files =
      (none, (files.take (i + 1)).flatMap (attemptEvents os abs conv)) := by
  induction files generalizing i with
  | nil =>
    obtain ⟨_, q, t, hq, _⟩ := h
    simp at hq
  | cons path rest ih =>
    obtain ⟨hbefore, q, t, hq, hfail⟩ := h
    cases i with
    | zero =>
      simp only [List.get?_cons_zero, Option.some.injEq] at hq
      subst hq
      rw [convertLoop_cons_fail os abs conv _ rest e t hfail]
      simp [attemptEvents, hfail]
    | succ n =>
      obtain ⟨t0, ht0⟩ := hbefore path (by simp)
      have hrest : firstFailureAt os abs conv rest n e := by
        refine ⟨fun p hp => hbefore p ?_, q, t, by simpa using hq, hfail⟩
        simp only [List.take_succ_cons, List.mem_cons]
        exact Or.inr hp
      rw [convertLoop_cons_ok os abs conv _ rest t0 ht0, ih n hrest]
      simp [attemptEvents, ht0]

theorem convertLoop_all_ok (os : PathOS) (abs : GoString → Except GoError GoString)
    (conv : GoString → GoString → Run) (files : List GoString)
    (h : ∀ p ∈ files, ∃ t, attempt os abs conv p = some (none, t)) :
    convertLoop os abs conv files = (none, files.flatMap (attemptEvents os abs conv)) := by
  induction files with
  | nil => rfl
  | cons path rest ih =>
    obtain ⟨t0, ht0⟩ := h path (by simp)
    rw [convertLoop_cons_ok os abs conv _ rest t0 ht0, ih (fun p hp => h p (by simp [hp]))]
    simp [attemptEvents, ht0]

theorem convertLoop_prefix (os : PathOS) (abs : GoString → Except GoError GoString)
    (conv : GoString → GoString → Run) (files : List GoString) :
    ∃ k, k ≤ files.length ∧
      (convertLoop os abs conv files).2 = (files.take k).flatMap (attemptEvents os abs conv) := by
  induction files with
  | nil => exact ⟨0, by simp, rfl⟩
  | cons path rest ih =>
    cases ha : attempt os abs conv path with
    | none =>
      obtain ⟨err, herr⟩ := convertLoop_cons_unresolved os abs conv path rest ha
      exact ⟨0, by simp, by simp [herr]⟩
    | some r =>
      obtain ⟨res, t⟩ := r
      cases res with
      | some e =>
        refine ⟨1, by simp, ?_⟩
        rw [convertLoop_cons_fail os abs conv path rest e t ha]
        simp [attemptEvents, ha]
      | none =>
        obtain ⟨k, hk, hev⟩ := ih
        refine ⟨k + 1, by simpa using hk, ?_⟩
        rw [convertLoop_cons_ok os abs conv path rest t ha]
        simp [attemptEvents, ha, hev]

theorem convertLoop_error_from_abs (os : PathOS) (abs : GoString → Except GoError GoString)
    (conv : GoString → GoString → Run) (files : List GoString) (err : GoError)
    (h : (convertLoop os abs conv files).1 = some err) : ∃ p, abs p = .error err := by
  induction files with
  | nil => simp [convertLoop] at h
  | cons path rest ih =>
    simp only [convertLoop] at h
    cases ha : abs path with
    | error e0 =>
      simp only [ha, Option.some.injEq] at h
      exact ⟨path, by rw [ha, h]⟩
    | ok fullpath =>
      cases hp : getPdfPath os abs path with
      | error e0 =>
        simp only [ha, hp, Option.some.injEq] at h
        obtain ⟨q, hq⟩ := getPdfPath_error os abs path e0 hp
        exact ⟨q, by rw [hq, h]⟩
      | ok r =>
        simp only [ha, hp] at h
        cases hc : (conv fullpath r.2).1 with
        | some e1 => simp [hc] at h
        | none =>
          simp only [hc] at h
          exact ih h

theorem convertExcelFileToPdf_run (os : PathOS) (abs : GoString → Except GoError GoString)
    (h : ExcelHost) (files : List GoString) (ig : GoString) (hne : files ≠ [])
    (hs : sessionStarts h.toAppHost) :
    convertExcelFileToPdf os abs h files ig =
      (quitDeferred h.quitErr
        (convertLoop os abs (fun a b => convertXlsxToPdf h a b ig) files).1,
       startEvents "Excel.Application" ++
        (convertLoop os abs (fun a b => convertXlsxToPdf h a b ig) files).2 ++ teardownEvents) := by
  obtain ⟨h1, h2, h3⟩ := hs
  have hlen : ¬ files.length = 0 := by simpa using hne
  simp [convertExcelFileToPdf, createApp, hlen, h1, h2, h3, startEvents, teardownEvents]

theorem convertWordFileToPdf_run (os : PathOS) (abs : GoString → Except GoError GoString)
    (h : WordHost) (files : List GoString) (hne : files ≠ [])
    (hs : sessionStarts h.toAppHost) (hv : h.visibleErr = none) :
    convertWordFileToPdf os abs h files =
      (quitDeferred h.quitErr (convertLoop os abs (convertDocxToPdf h) files).1,
       startEvents "Word.Application" ++ [Event.putProperty .app "Visible" [.bool false]] ++
        (convertLoop os abs (convertDocxToPdf h) files).2 ++ teardownEvents) := by
  obtain ⟨h1, h2, h3⟩ := hs
  have hlen : ¬ files.length = 0 := by simpa using hne
  simp [convertWordFileToPdf, createApp, hlen, h1, h2, h3, hv, startEvents, teardownEvents]

theorem convertPptFileToPdf_run (os : PathOS) (abs : GoString → Except GoError GoString)
    (h : PowerPointHost) (files : List GoString) (hne : files ≠ [])
    (hs : sessionStarts h.toAppHost) :
    convertPptFileToPdf os abs h files =
      (quitDeferred h.quitErr (convertLoop os abs (convertPptxToPdf h) files).1,
       startEvents "PowerPoint.Application" ++
        (convertLoop os abs (convertPptxToPdf h) files).2 ++ teardownEvents) := by
  obtain ⟨h1, h2, h3⟩ := hs
  have hlen : ¬ files.length = 0 := by simpa using hne
  simp [convertPptFileToPdf, createApp, hlen, h1, h2, h3, startEvents, teardownEvents]

theorem firstFailureAt_ne_nil (os : PathOS) (abs : GoString → Except GoError GoString)
    (conv : GoString → GoString → Run) (files : List GoString) (i : Nat) (e : GoError)
    (h : firstFailureAt os abs conv files i e) : files ≠ [] := by
  obtain ⟨_, q, t, hq, _⟩ := h
  intro hnil
  simp [hnil] at hq

theorem openedPaths_append (a b : List Event) :
    openedPaths (a ++ b) = openedPaths a ++ openedPaths b := by
  simp [openedPaths, List.filterMap_append]

theorem openedPaths_nil : openedPaths [] = [] := rfl

theorem openedPaths_cons (e : Event) (l : List Event) :
    openedPaths (e :: l) = (openedPath e).toList ++ openedPaths l := by
  cases h : openedPath e <;> simp [openedPaths, List.filterMap_cons, h]

theorem selectSheets_openedPaths (ig : GoString) (i : Nat) (sheets : List Worksheet) :
    openedPaths (selectSheets ig i sheets).2.1 = [] ∧
    openedPaths (selectSheets ig i sheets).2.2 = [] := by
  induction sheets generalizing i with
  | nil => simp [selectSheets, openedPaths_nil]
  | cons ws rest ih =>
    obtain ⟨h1, h2⟩ := ih (i + 1)
    unfold selectSheets
    cases hpre : startsWith ws.Name ig with
    | true =>
      simp [openedPaths_append, openedPaths_cons, openedPaths_nil, openedPath, h1, h2]
    | false =>
      cases hsel : ws.selectErr <;>
        simp [openedPaths_append, openedPaths_cons, openedPaths_nil, openedPath, h1, h2]

theorem markSavedAndClose_openedPaths (wb : Workbook) :
    openedPaths (markSavedAndClose wb).2 = [] := by
  unfold markSavedAndClose
  cases wb.savedErr <;> cases wb.closeErr <;>
    simp [openedPaths_cons, openedPaths_nil, openedPath]

theorem convertXlsxToPdf_openedPaths (h : ExcelHost) (xlPath pdfFilePath ig : GoString) :
    ∀ p ∈ openedPaths (convertXlsxToPdf h xlPath pdfFilePath ig).2, p = xlPath := by
  unfold convertXlsxToPdf convertXlsxToPdfBody Body.run
  cases h.workbooksErr with
  | some err => simp [openedPaths_cons, openedPaths_nil, openedPath]
  | none =>
    cases h.openWorkbook xlPath with
    | error err => simp [openedPaths_append, openedPaths_cons, openedPaths_nil, openedPath]
    | ok wb =>
      have hm := markSavedAndClose_openedPaths wb
      obtain ⟨hs1, hs2⟩ := selectSheets_openedPaths ig 1 wb.sheets
      by_cases hig : ig = []
      · simp only [hig, if_true]
        cases wb.exportErr <;>
          simp [openedPaths_append, openedPaths_cons, openedPaths_nil, openedPath, xlExportArgs, hm]
      · simp only [hig, if_false]
        cases wb.worksheetsErr with
        | some err => simp [openedPaths_append, openedPaths_cons, openedPaths_nil, openedPath]
        | none =>
          dsimp only
          cases (selectSheets ig 1 wb.sheets).1 with
          | some err =>
            simp [openedPaths_append, openedPaths_cons, openedPaths_nil, openedPath, hs1, hs2]
          | none =>
            cases wb.activeSheetErr with
            | some err =>
              simp [openedPaths_append, openedPaths_cons, openedPaths_nil, openedPath, hs1, hs2]
            | none =>
              cases wb.sheetExportErr <;>
                simp [openedPaths_append, openedPaths_cons, openedPaths_nil, openedPath,
                  xlExportArgs, hs1, hs2, hm]

theorem convertDocxToPdf_openedPaths (h : WordHost) (dcPath pdfFilePath : GoString) :
    ∀ p ∈ openedPaths (convertDocxToPdf h dcPath pdfFilePath).2, p = dcPath := by
  unfold convertDocxToPdf convertDocxToPdfBody Body.run
  repeat' split
  all_goals simp [openedPaths_append, openedPaths_cons, openedPaths_nil, openedPath]

theorem convertPptxToPdf_openedPaths (h : PowerPointHost) (pptPath pdfFilePath : GoString) :
    ∀ p ∈ openedPaths (convertPptxToPdf h pptPath pdfFilePath).2, p = pptPath := by
  unfold convertPptxToPdf convertPptxToPdfBody Body.run openPptFile
  cases h.presentationsErr with
  | some err => simp [openedPaths_cons, openedPaths_nil, openedPath]
  | none =>
    cases h.openPresentation pptPath with
    | error err =>
      simp [openedPaths_append, openedPaths_cons, openedPaths_nil, openedPath]
    | ok ppt =>
      dsimp only
      repeat' split
      all_goals
        simp [openedPaths_append, openedPaths_cons, openedPaths_nil, openedPath, pptExportArgs]

theorem attemptEvents_openedPaths (os : PathOS) (abs : GoString → Except GoError GoString)
    (conv : GoString → GoString → Run)
    (hconv : ∀ a b, ∀ p ∈ openedPaths (conv a b).2, p = a) (q p : GoString)
    (hp : p ∈ openedPaths (attemptEvents os abs conv q)) : abs q = .ok p := by
  unfold attemptEvents attempt at hp
  cases ha : abs q with
  | error err => simp [ha, openedPaths_nil] at hp
  | ok fullpath =>
    cases hg : getPdfPath os abs q with
    | error err => simp [ha, hg, openedPaths_nil] at hp
    | ok r =>
      simp only [ha, hg] at hp
      rw [hconv _ _ p hp]

theorem opensOnlyFirst_of_convertsFirst (os : PathOS) (abs : GoString → Except GoError GoString)
    (conv : GoString → GoString → Run) (start : List Event) (files : List GoString) (k : Nat)
    (events : List Event)
    (hconv : ∀ a b, ∀ p ∈ openedPaths (conv a b).2, p = a) (hstart : openedPaths start = [])
    (h : convertsFirst os abs conv start files k events) : opensOnlyFirst abs files k events := by
  intro p hp
  rw [h, openedPaths_append, openedPaths_append, hstart] at hp
  have hteardown : openedPaths teardownEvents = [] := by
    simp [teardownEvents, openedPaths_cons, openedPaths_nil, openedPath]
  rw [hteardown] at hp
  simp only [List.nil_append, List.append_nil] at hp
  generalize files.take k = l at hp ⊢
  induction l with
  | nil => simp [openedPaths_nil] at hp
  | cons q rest ih =>
    rw [List.flatMap_cons, openedPaths_append] at hp
    rcases List.mem_append.mp hp with h1 | h2
    · exact ⟨q, by simp, attemptEvents_openedPaths os abs conv hconv q p h1⟩
    · obtain ⟨q1, hq1, hq2⟩ := ih h2
      exact ⟨q1, by simp [hq1], hq2⟩

theorem startEvents_openedPaths (progID : String) : openedPaths (startEvents progID) = [] := by
  simp [startEvents, openedPaths_cons, openedPaths_nil, openedPath]

theorem wordStartEvents_openedPaths : openedPaths wordStartEvents = [] := by
  simp [wordStartEvents, startEvents, openedPaths_cons, openedPaths_nil, openedPath]

/-- C7: in a session that starts, each family converter converts the files one at a time in
bucket order from index 0: its calls are those of the session start, then the complete
conversions of the first `k` files for some `k`, then the teardown. When the conversion of
the file at index `i` is the first to fail, `k` is `i + 1`: exactly the files at indices
`0..i` are attempted, and every path opened is that of one of them, so no later file is
opened. -/
theorem family_converters_stop_at_first_failure (os : PathOS)
    (abs : GoString → Except GoError GoString) (excel : ExcelHost) (word : WordHost)
    (ppt : PowerPointHost) (ig : GoString) (files : List GoString) (i : Nat) (e : GoError) :
    (sessionStarts excel.toAppHost →
      (files ≠ [] → ∃ k, k ≤ files.length ∧
        convertsFirst os abs (fun a b => convertXlsxToPdf excel a b ig)
          (startEvents "Excel.Application") files k
          (convertExcelFileToPdf os abs excel files ig).2) ∧
      (firstFailureAt os abs (fun a b => convertXlsxToPdf excel a b ig) files i e →
        convertsFirst os abs (fun a b => convertXlsxToPdf excel a b ig)
          (startEvents "Excel.Application") files (i + 1)
          (convertExcelFileToPdf os abs excel files ig).2 ∧
        opensOnlyFirst abs files (i + 1) (convertExcelFileToPdf os abs excel files ig).2)) ∧
    (sessionStarts word.toAppHost → word.visibleErr = none →
      (files ≠ [] → ∃ k, k ≤ files.length ∧
        convertsFirst os abs (convertDocxToPdf word) wordStartEvents files k
          (convertWordFileToPdf os abs word files).2) ∧
      (firstFailureAt os abs (convertDocxToPdf word) files i e →
        convertsFirst os abs (convertDocxToPdf word) wordStartEvents files (i + 1)
          (convertWordFileToPdf os abs word files).2 ∧
        opensOnlyFirst abs files (i + 1) (convertWordFileToPdf os abs word files).2)) ∧
    (sessionStarts ppt.toAppHost →
      (files ≠ [] → ∃ k, k ≤ files.length ∧
        convertsFirst os abs (convertPptxToPdf ppt) (startEvents "PowerPoint.Application") files k
          (convertPptFileToPdf os abs ppt files).2) ∧
      (firstFailureAt os abs (convertPptxToPdf ppt) files i e →
        convertsFirst os abs (convertPptxToPdf ppt) (startEvents "PowerPoint.Application") files
          (i + 1) (convertPptFileToPdf os abs ppt files).2 ∧
        opensOnlyFirst abs files (i + 1) (convertPptFileToPdf os abs ppt files).2)) := by
  refine ⟨fun hs => ⟨fun hne => ?_, fun hf => ?_⟩, fun hs hv => ⟨fun hne => ?_, fun hf => ?_⟩,
    fun hs => ⟨fun hne => ?_, fun hf => ?_⟩⟩
  · obtain ⟨k, hk, hev⟩ :=
      convertLoop_prefix os abs (fun a b => convertXlsxToPdf excel a b ig) files
    exact ⟨k, hk, by rw [convertsFirst, convertExcelFileToPdf_run os abs excel files ig hne hs, hev]⟩
  · have hne := firstFailureAt_ne_nil os abs _ files i e hf
    have hc : convertsFirst os abs (fun a b => convertXlsxToPdf excel a b ig)
        (startEvents "Excel.Application") files (i + 1)
        (convertExcelFileToPdf os abs excel files ig).2 := by
      rw [convertsFirst, convertExcelFileToPdf_run os abs excel files ig hne hs,
        convertLoop_first_failure os abs _ files i e hf]
    exact ⟨hc, opensOnlyFirst_of_convertsFirst os abs _ _ files (i + 1) _
      (fun a b => convertXlsxToPdf_openedPaths excel a b ig) (startEvents_openedPaths _) hc⟩
  · obtain ⟨k, hk, hev⟩ := convertLoop_prefix os abs (convertDocxToPdf word) files
    exact ⟨k, hk, by
      rw [convertsFirst, convertWordFileToPdf_run os abs word files hne hs hv, hev]; rfl⟩
  · have hne := firstFailureAt_ne_nil os abs _ files i e hf
    have hc : convertsFirst os abs (convertDocxToPdf word) wordStartEvents files (i + 1)
        (convertWordFileToPdf os abs word files).2 := by
      rw [convertsFirst, convertWordFileToPdf_run os abs word files hne hs hv,
        convertLoop_first_failure os abs _ files i e hf]
      rfl
    exact ⟨hc, opensOnlyFirst_of_convertsFirst os abs _ _ files (i + 1) _
      (convertDocxToPdf_openedPaths word) wordStartEvents_openedPaths hc⟩
  · obtain ⟨k, hk, hev⟩ := convertLoop_prefix os abs (convertPptxToPdf ppt) files
    exact ⟨k, hk, by rw [convertsFirst, convertPptFileToPdf_run os abs ppt files hne hs, hev]⟩
  · have hne := firstFailureAt_ne_nil os abs _ files i e hf
    have hc : convertsFirst os abs (convertPptxToPdf ppt) (startEvents "PowerPoint.Application")
        files (i + 1) (convertPptFileToPdf os abs ppt files).2 := by
      rw [convertsFirst, convertPptFileToPdf_run os abs ppt files hne hs,
        convertLoop_first_failure os abs _ files i e hf]
    exact ⟨hc, opensOnlyFirst_of_convertsFirst os abs _ _ files (i + 1) _
      (convertPptxToPdf_openedPaths ppt) (startEvents_openedPaths _) hc⟩

theorem family_converters_stop_at_first_failure_witness :
    sessionStarts excelSecondFails.toAppHost ∧
    firstFailureAt slashOS (absIn "/w".toList)
      (fun a b => convertXlsxToPdf excelSecondFails a b "_".toList)
      ["first.xlsx".toList, "second.xlsx".toList, "third.xlsx".toList] 1 (.host "cannot open") ∧
    convertsFirst slashOS (absIn "/w".toList)
      (fun a b => convertXlsxToPdf excelSecondFails a b "_".toList)
      (startEvents "Excel.Application")
      ["first.xlsx".toList, "second.xlsx".toList, "third.xlsx".toList] 2
      (convertExcelFileToPdf slashOS (absIn "/w".toList) excelSecondFails
        ["first.xlsx".toList, "second.xlsx".toList, "third.xlsx".toList] "_".toList).2 ∧
    openedPaths (convertExcelFileToPdf slashOS (absIn "/w".toList) excelSecondFails
        ["first.xlsx".toList, "second.xlsx".toList, "third.xlsx".toList] "_".toList).2
      = ["/w/first.xlsx".toList, "/w/second.xlsx".toList] :=
  have hs : sessionStarts excelSecondFails.toAppHost := ⟨rfl, rfl, rfl⟩
  have hf : firstFailureAt slashOS (absIn "/w".toList)
      (fun a b => convertXlsxToPdf excelSecondFails a b "_".toList)
      ["first.xlsx".toList, "second.xlsx".toList, "third.xlsx".toList] 1 (.host "cannot open") :=
    ⟨fun p hp => by
        have hp1 : p = "first.xlsx".toList := by simpa using hp
        subst hp1
        exact ⟨_, rfl⟩,
      "second.xlsx".toList, _, rfl, rfl⟩
  ⟨hs, hf,
    (((family_converters_stop_at_first_failure slashOS (absIn "/w".toList) excelSecondFails wordOk
      pptOk "_".toList ["first.xlsx".toList, "second.xlsx".toList, "third.xlsx".toList] 1
      (.host "cannot open")).1 hs).2 hf).1,
    by decide⟩

theorem getFilePaths_buckets_by_extension_witness :
    getFilePaths slashOS "root".toList
      (.dir "root".toList none
        [.file "deck.pptx".toList, .file "test1.xlsx".toList, .file "test2.xlsx".toList])
      = .ok (["root/test1.xlsx".toList, "root/test2.xlsx".toList], [], ["root/deck.pptx".toList]) ∧
    ["root/test1.xlsx".toList, "root/test2.xlsx".toList].Sublist
      ((walkEntries slashOS "root".toList
        (.dir "root".toList none
          [.file "deck.pptx".toList, .file "test1.xlsx".toList, .file "test2.xlsx".toList])).map
        WalkEntry.path) :=
  ⟨rfl,
    (getFilePaths_buckets_by_extension slashOS "root".toList
      (.dir "root".toList none
        [.file "deck.pptx".toList, .file "test1.xlsx".toList, .file "test2.xlsx".toList])
      ["root/test1.xlsx".toList, "root/test2.xlsx".toList] [] ["root/deck.pptx".toList]
      rfl).2.2.1⟩

theorem selectedOrdinals_append (a b : List Event) :
    selectedOrdinals (a ++ b) = selectedOrdinals a ++ selectedOrdinals b := by
  simp [selectedOrdinals, List.filterMap_append]

theorem selectedOrdinals_nil : selectedOrdinals [] = [] := rfl

theorem selectedOrdinals_cons (e : Event) (l : List Event) :
    selectedOrdinals (e :: l) = (selectedOrdinal e).toList ++ selectedOrdinals l := by
  cases h : selectedOrdinal e <;> simp [selectedOrdinals, List.filterMap_cons, h]

theorem includedFrom_cons_skip (ig : GoString) (i : Nat) (ws : Worksheet) (rest : List Worksheet)
    (h : startsWith ws.Name ig = true) :
    includedFrom ig i (ws :: rest) = includedFrom ig (i + 1) rest := by
  simp [includedFrom, List.enumFrom_cons, List.filter_cons, h]

theorem includedFrom_cons_keep (ig : GoString) (i : Nat) (ws : Worksheet) (rest : List Worksheet)
    (h : startsWith ws.Name ig = false) :
    includedFrom ig i (ws :: rest) = (i, ws) :: includedFrom ig (i + 1) rest := by
  simp [includedFrom, List.enumFrom_cons, List.filter_cons, h]

theorem selectSheets_selected_prefix (ig : GoString) (i : Nat) (sheets : List Worksheet) :
    ∃ k, selectedOrdinals (selectSheets ig i sheets).2.1 =
      ((includedFrom ig i sheets).take k).map Prod.fst := by
  induction sheets generalizing i with
  | nil => exact ⟨0, by simp [selectSheets, selectedOrdinals_nil]⟩
  | cons ws rest ih =>
    obtain ⟨k, hk⟩ := ih (i + 1)
    unfold selectSheets
    cases hpre : startsWith ws.Name ig with
    | true =>
      refine ⟨k, ?_⟩
      rw [includedFrom_cons_skip ig i ws rest hpre]
      simp [selectedOrdinals_append, selectedOrdinals_cons, selectedOrdinals_nil, selectedOrdinal, hk]
    | false =>
      rw [includedFrom_cons_keep ig i ws rest hpre]
      cases hsel : ws.selectErr with
      | some err =>
        exact ⟨1, by
          simp [selectedOrdinals_append, selectedOrdinals_cons, selectedOrdinals_nil, selectedOrdinal]⟩
      | none =>
        exact ⟨k + 1, by
          simp [selectedOrdinals_append, selectedOrdinals_cons, selectedOrdinals_nil, selectedOrdinal,
            hk]⟩

theorem selectSheets_selected_all (ig : GoString) (i : Nat) (sheets : List Worksheet)
    (h : (selectSheets ig i sheets).1 = none) :
    selectedOrdinals (selectSheets ig i sheets).2.1 = (includedFrom ig i sheets).map Prod.fst := by
  induction sheets generalizing i with
  | nil => simp [selectSheets, selectedOrdinals_nil, includedFrom]
  | cons ws rest ih =>
    unfold selectSheets at h ⊢
    cases hpre : startsWith ws.Name ig with
    | true =>
      simp only [hpre, if_true] at h
      rw [includedFrom_cons_skip ig i ws rest hpre]
      simp [selectedOrdinals_append, selectedOrdinals_cons, selectedOrdinals_nil, selectedOrdinal,
        ih (i + 1) h]
    | false =>
      rw [includedFrom_cons_keep ig i ws rest hpre]
      cases hsel : ws.selectErr with
      | some err => simp [hpre, hsel] at h
      | none =>
        simp only [hpre, hsel, Bool.false_eq_true, if_false] at h
        simp [selectedOrdinals_append, selectedOrdinals_cons, selectedOrdinals_nil, selectedOrdinal,
          ih (i + 1) h]

theorem selectSheets_succeeds (ig : GoString) (i : Nat) (sheets : List Worksheet)
    (h : ∀ iw ∈ includedFrom ig i sheets, iw.2.selectErr = none) :
    (selectSheets ig i sheets).1 = none := by
  induction sheets generalizing i with
  | nil => rfl
  | cons ws rest ih =>
    unfold selectSheets
    cases hpre : startsWith ws.Name ig with
    | true =>
      rw [includedFrom_cons_skip ig i ws rest hpre] at h
      simpa using ih (i + 1) h
    | false =>
      rw [includedFrom_cons_keep ig i ws rest hpre] at h
      have hsel : ws.selectErr = none := h (i, ws) (by simp)
      have hrest := ih (i + 1) (fun iw hiw => h iw (by simp [hiw]))
      simpa [hsel] using hrest

theorem selectSheets_deferred (ig : GoString) (i : Nat) (sheets : List Worksheet) (pdf : GoString) :
    selectedOrdinals (selectSheets ig i sheets).2.2 = [] ∧
    activeSheetExport pdf ∉ (selectSheets ig i sheets).2.1 ∧
    activeSheetExport pdf ∉ (selectSheets ig i sheets).2.2 := by
  induction sheets generalizing i with
  | nil => simp [selectSheets, selectedOrdinals_nil]
  | cons ws rest ih =>
    obtain ⟨h1, h2, h3⟩ := ih (i + 1)
    unfold selectSheets
    simp only [activeSheetExport] at h2 h3
    cases hpre : startsWith ws.Name ig with
    | true =>
      simp [selectedOrdinals_append, selectedOrdinals_cons, selectedOrdinals_nil, selectedOrdinal,
        h1, h2, h3, activeSheetExport]
    | false =>
      cases hsel : ws.selectErr <;>
        simp [selectedOrdinals_append, selectedOrdinals_cons, selectedOrdinals_nil, selectedOrdinal,
          h1, h2, h3, activeSheetExport]

theorem markSavedAndClose_selected (wb : Workbook) (pdf : GoString) :
    selectedOrdinals (markSavedAndClose wb).2 = [] ∧
    activeSheetExport pdf ∉ (markSavedAndClose wb).2 := by
  unfold markSavedAndClose
  cases wb.savedErr <;> cases wb.closeErr <;>
    simp [selectedOrdinals_cons, selectedOrdinals_nil, selectedOrdinal, activeSheetExport]

/-- The `Select` calls of `convertXlsxToPdf`: for every workbook the host opens and every
non-empty exclusion prefix `ig`, the sheets on which `Select` is issued are, in the order of
the calls, an initial part of the sheets `1..count` whose name does not start with `ig`;
whenever the export of the active sheet is issued they are exactly those sheets; and when the
host answers the calls before it, the export is issued after all these `Select` calls.
What the export renders is the subject of `convertXlsxToPdf_writes_initial_and_unprefixed`. -/
theorem convertXlsxToPdf_selects_unprefixed_sheets (h : ExcelHost)
    (xlPath pdfFilePath ig : GoString) (wb : Workbook) (hig : ig ≠ [])
    (hw : h.workbooksErr = none) (ho : h.openWorkbook xlPath = .ok wb) :
    (∃ k, selectedOrdinals (convertXlsxToPdf h xlPath pdfFilePath ig).2 =
      ((includedSheets ig wb.sheets).take k).map Prod.fst) ∧
    (activeSheetExport pdfFilePath ∈ (convertXlsxToPdf h xlPath pdfFilePath ig).2 →
      selectedOrdinals (convertXlsxToPdf h xlPath pdfFilePath ig).2 =
        (includedSheets ig wb.sheets).map Prod.fst) ∧
    (wb.worksheetsErr = none → wb.activeSheetErr = none →
      (∀ iw ∈ includedSheets ig wb.sheets, iw.2.selectErr = none) →
      ∃ pre post, (convertXlsxToPdf h xlPath pdfFilePath ig).2 =
          pre ++ activeSheetExport pdfFilePath :: post ∧
        selectedOrdinals pre = (includedSheets ig wb.sheets).map Prod.fst ∧
        selectedOrdinals post = []) ∧
    (∀ iw ∈ includedSheets ig wb.sheets, startsWith iw.2.Name ig = false) ∧
    selectedOrdinals
      (convertXlsxToPdf excelOk "/w/book.xlsx".toList "/w/book.pdf".toList "_".toList).2 = [1, 3] ∧
    (includedSheets "_".toList (okWorkbook ["Data".toList, "_Hidden".toList, "Summary".toList]).sheets).map
      (fun iw => (iw.1, iw.2.Name)) = [(1, "Data".toList), (3, "Summary".toList)] := by
  obtain ⟨k, hk⟩ := selectSheets_selected_prefix ig 1 wb.sheets
  obtain ⟨hd1, hd2, hd3⟩ := selectSheets_deferred ig 1 wb.sheets pdfFilePath
  obtain ⟨hm1, hm2⟩ := markSavedAndClose_selected wb pdfFilePath
  have hall := selectSheets_selected_all ig 1 wb.sheets
  have hsucc := selectSheets_succeeds ig 1 wb.sheets
  have hinc : includedSheets ig wb.sheets = includedFrom ig 1 wb.sheets := rfl
  simp only [activeSheetExport] at hd2 hd3 hm2
  refine ⟨?_, ?_, ?_, ?_, by decide, by decide⟩
  · simp only [convertXlsxToPdf, convertXlsxToPdfBody, Body.run, hw, ho, hig, if_false, hinc]
    cases wb.worksheetsErr with
    | some err =>
      exact ⟨0, by
        simp [selectedOrdinals_append, selectedOrdinals_cons, selectedOrdinals_nil, selectedOrdinal]⟩
    | none =>
      dsimp only
      refine ⟨k, ?_⟩
      cases (selectSheets ig 1 wb.sheets).1 with
      | some err =>
        simp [selectedOrdinals_append, selectedOrdinals_cons, selectedOrdinals_nil, selectedOrdinal,
          hk, hd1]
      | none =>
        cases wb.activeSheetErr with
        | some err =>
          simp [selectedOrdinals_append, selectedOrdinals_cons, selectedOrdinals_nil,
            selectedOrdinal, hk, hd1]
        | none =>
          cases wb.sheetExportErr <;>
            simp [selectedOrdinals_append, selectedOrdinals_cons, selectedOrdinals_nil,
              selectedOrdinal, xlExportArgs, hk, hd1, hm1]
  · simp only [convertXlsxToPdf, convertXlsxToPdfBody, Body.run, hw, ho, hig, if_false, hinc,
      activeSheetExport]
    cases wb.worksheetsErr with
    | some err => simp
    | none =>
      dsimp only
      cases hl : (selectSheets ig 1 wb.sheets).1 with
      | some err => simp [hd2, hd3]
      | none =>
        have hsel := hall hl
        cases wb.activeSheetErr with
        | some err => simp [hd2, hd3]
        | none =>
          cases wb.sheetExportErr <;>
            simp [selectedOrdinals_append, selectedOrdinals_cons, selectedOrdinals_nil,
              selectedOrdinal, xlExportArgs, hsel, hd1, hm1]
  · intro hwe hae hsels
    have hl := hsucc (by rw [← hinc]; exact hsels)
    have hsel := hall hl
    simp only [convertXlsxToPdf, convertXlsxToPdfBody, Body.run, hw, ho, hig, if_false, hinc,
      activeSheetExport, hwe, hae, hl]
    refine ⟨[Event.getProperty .app "Workbooks" [],
        Event.callMethod .workbooks "Open" [.str xlPath],
        Event.getProperty .workbook "Worksheets" [],
        Event.getProperty .worksheets "Count" []] ++ (selectSheets ig 1 wb.sheets).2.1 ++
        [Event.getProperty .workbook "ActiveSheet" []], ?_, ?_, ?_, ?_⟩
    · exact (match wb.sheetExportErr with
        | some _ => []
        | none => (markSavedAndClose wb).2) ++
        (Event.release .activeSheet :: ((selectSheets ig 1 wb.sheets).2.2 ++
          [Event.release .worksheets, Event.release .workbook, Event.release .workbooks]))
    · cases wb.sheetExportErr <;> simp
    · simp [selectedOrdinals_append, selectedOrdinals_cons, selectedOrdinals_nil, selectedOrdinal,
        hsel]
    · cases wb.sheetExportErr <;>
        simp [selectedOrdinals_append, selectedOrdinals_cons, selectedOrdinals_nil, selectedOrdinal,
          hd1, hm1]
  · intro iw hiw
    simpa [includedSheets] using (List.mem_filter.mp hiw).2

theorem convertXlsxToPdf_selects_unprefixed_sheets_witness :
    "_".toList ≠ [] ∧ excelOk.workbooksErr = none ∧
    activeSheetExport "/w/book.pdf".toList ∈
      (convertXlsxToPdf excelOk "/w/book.xlsx".toList "/w/book.pdf".toList "_".toList).2 ∧
    selectedOrdinals
      (convertXlsxToPdf excelOk "/w/book.xlsx".toList "/w/book.pdf".toList "_".toList).2 =
      (includedSheets "_".toList
        (okWorkbook ["Data".toList, "_Hidden".toList, "Summary".toList]).sheets).map Prod.fst :=
  ⟨by decide, rfl, by decide,
    (convertXlsxToPdf_selects_unprefixed_sheets excelOk "/w/book.xlsx".toList "/w/book.pdf".toList
      "_".toList (okWorkbook ["Data".toList, "_Hidden".toList, "Summary".toList])
      (by decide) rfl rfl).2.1 (by decide)⟩

theorem carriesText_fmtErrorfW (w : GoError) (s : String) : carriesText (fmtErrorfW w s) s :=
  ⟨(w.Error ++ ": ").data, [], by simp [fmtErrorfW, GoError.Error]⟩

theorem carriesText_fmtErrorfW_nested (w e : GoError) (s : String) (h : carriesText e s) :
    carriesText (fmtErrorfW w e.Error) s := by
  obtain ⟨pre, post, hpp⟩ := h
  exact ⟨(w.Error ++ ": ").data ++ pre, post, by simp [fmtErrorfW, GoError.Error, hpp]⟩

theorem errorsIs_fmtErrorfW_new (t s : String) : errorsIs (fmtErrorfW (.new t) s) (.new t) = true := by
  simp [fmtErrorfW, errorsIs, GoError.same]

/-- In `convertPptxToPdf` a failed open is tagged `ErrOpenFile` and a failed export is tagged
`ErrConvertPdf`, for every host and every host error; the message carries the host text. -/
theorem convertPptxToPdf_tags_failures (h : PowerPointHost) (pptPath pdfFilePath : GoString)
    (e : GoError) (hp : h.presentationsErr = none) :
    (h.openPresentation pptPath = .error e →
      ∃ err, (convertPptxToPdf h pptPath pdfFilePath).1 = some err ∧
        errorsIs err ErrOpenFile = true ∧ carriesText err e.Error) ∧
    (∀ ppt, h.openPresentation pptPath = .ok ppt → ppt.slidesErr = none →
      ppt.pageSetupErr = none → ppt.printOptionsErr = none → ppt.rangesErr = none →
      ppt.addErr = none → ppt.exportErr = some e →
      ∃ err, (convertPptxToPdf h pptPath pdfFilePath).1 = some err ∧
        errorsIs err ErrConvertPdf = true ∧ carriesText err e.Error) := by
  refine ⟨fun ho => ?_, fun ppt ho h1 h2 h3 h4 h5 h6 => ?_⟩
  · refine ⟨fmtErrorfW ErrOpenFile (fmtErrorfW ErrOpenFile e.Error).Error, ?_, ?_, ?_⟩
    · simp [convertPptxToPdf, convertPptxToPdfBody, Body.run, openPptFile, hp, ho]
    · exact errorsIs_fmtErrorfW_new _ _
    · exact carriesText_fmtErrorfW_nested _ _ _ (carriesText_fmtErrorfW _ _)
  · refine ⟨fmtErrorfW ErrConvertPdf e.Error, ?_, ?_, ?_⟩
    · simp [convertPptxToPdf, convertPptxToPdfBody, Body.run, openPptFile, hp, ho, h1, h2, h3, h4,
        h5, h6]
    · exact errorsIs_fmtErrorfW_new _ _
    · exact carriesText_fmtErrorfW _ _

/-- In `convertXlsxToPdf` and `convertDocxToPdf` a failed open returns the host error itself,
for every host and every host error. -/
theorem convertXlsxToPdf_returns_open_error (h : ExcelHost) (xlPath pdfFilePath ig : GoString)
    (e : GoError) (hw : h.workbooksErr = none) (ho : h.openWorkbook xlPath = .error e) :
    (convertXlsxToPdf h xlPath pdfFilePath ig).1 = some e := by
  simp [convertXlsxToPdf, convertXlsxToPdfBody, Body.run, hw, ho]

/-- When the conversion of the file at index `i` is the first to fail and `Quit` succeeds, the
loop of a family converter ends with `return err` on a nil `err`: the converter returns nil. -/
theorem convertExcelFileToPdf_returns_nil_on_first_failure (os : PathOS)
    (abs : GoString → Except GoError GoString) (h : ExcelHost) (files : List GoString)
    (ig : GoString) (i : Nat) (e : GoError) (hs : sessionStarts h.toAppHost)
    (hq : h.quitErr = none)
    (hf : firstFailureAt os abs (fun a b => convertXlsxToPdf h a b ig) files i e) :
    (convertExcelFileToPdf os abs h files ig).1 = none := by
  rw [convertExcelFileToPdf_run os abs h files ig (firstFailureAt_ne_nil os abs _ files i e hf) hs,
    convertLoop_first_failure os abs _ files i e hf]
  simp [quitDeferred, hq]

theorem extScan_nil_or_dot (isSep : Char → Bool) (before after : List Char) :
    extScan isSep before after = [] ∨ ∃ rest, extScan isSep before after = '.' :: rest := by
  induction before generalizing after with
  | nil => exact Or.inl rfl
  | cons c before ih =>
    unfold extScan
    by_cases hs : isSep c = true
    · exact Or.inl (by simp [hs])
    · by_cases hd : c = '.'
      · subst hd
        exact Or.inr ⟨after, by simp_all⟩
      · simpa [hs, hd] using ih (c :: after)

theorem Ext_nil_or_dot (os : PathOS) (name : GoString) :
    Ext os name = [] ∨ ∃ rest, Ext os name = '.' :: rest :=
  extScan_nil_or_dot os.isPathSeparator name.reverse []

theorem Ext_ne_doc (os : PathOS) (name : GoString) : Ext os name ≠ "doc".toList := by
  intro h
  rcases Ext_nil_or_dot os name with h0 | ⟨rest, h1⟩
  · rw [h0] at h
    exact absurd h (by decide)
  · rw [h1] at h
    have hc : '.' = 'd' := (List.cons.inj h).1
    exact absurd hc (by decide)

theorem extScan_body (isSep : Char → Bool) (r before after : List Char)
    (hr : ∀ c ∈ r, isSep c = false ∧ c ≠ '.') (hdot : isSep '.' = false) :
    extScan isSep (r ++ '.' :: before) after = '.' :: (r.reverse ++ after) := by
  induction r generalizing after with
  | nil => simp [extScan, hdot]
  | cons c r ih =>
    obtain ⟨hc1, hc2⟩ := hr c (by simp)
    have := ih (c :: after) (fun d hd => hr d (by simp [hd]))
    simp [extScan, hc1, hc2, this]

theorem Ext_of_suffix (os : PathOS) (hdot : os.isPathSeparator '.' = false) (body pre : List Char)
    (hb : ∀ c ∈ body, os.isPathSeparator c = false ∧ c ≠ '.') :
    Ext os (pre ++ '.' :: body) = '.' :: body := by
  have h := extScan_body os.isPathSeparator body.reverse pre.reverse []
    (fun c hc => hb c (List.mem_reverse.mp hc)) hdot
  simpa [Ext] using h

theorem not_separator_of_slashes (os : PathOS) (hsep : separatorsAreSlashes os) (c : Char)
    (h1 : c ≠ '/') (h2 : c ≠ Char.ofNat 92) : os.isPathSeparator c = false := by
  cases hc : os.isPathSeparator c with
  | false => rfl
  | true =>
    rcases hsep c hc with h | h
    · exact absurd h h1
    · exact absurd h h2

theorem Ext_docx (os : PathOS) (hsep : separatorsAreSlashes os) (name : GoString)
    (h : ".docx".toList <:+ name) : Ext os name = ".docx".toList := by
  obtain ⟨pre, rfl⟩ := h
  have hn := not_separator_of_slashes os hsep
  exact Ext_of_suffix os (hn _ (by decide) (by decide)) "docx".toList pre (by
    intro c hc
    simp at hc
    rcases hc with rfl | rfl | rfl | rfl <;> exact ⟨hn _ (by decide) (by decide), by decide⟩)

theorem Ext_doc (os : PathOS) (hsep : separatorsAreSlashes os) (name : GoString)
    (h : ".doc".toList <:+ name) : Ext os name = ".doc".toList := by
  obtain ⟨pre, rfl⟩ := h
  have hn := not_separator_of_slashes os hsep
  exact Ext_of_suffix os (hn _ (by decide) (by decide)) "doc".toList pre (by
    intro c hc
    simp at hc
    rcases hc with rfl | rfl | rfl <;> exact ⟨hn _ (by decide) (by decide), by decide⟩)

theorem not_mem_pathsOf_of_unbucketed (os : PathOS) (g : Family) (entries : List WalkEntry)
    (e : WalkEntry) (he : e ∈ entries) (hf : bucketOf os e = none)
    (hnd : (entries.map WalkEntry.path).Nodup) : e.path ∉ pathsOf os g entries := by
  intro hmem
  obtain ⟨e1, he1, hb1, hp1⟩ := (mem_pathsOf os g entries e.path).mp hmem
  have heq : e1 = e := List.inj_on_of_nodup_map hnd he1 he hp1
  subst heq
  rw [hf] at hb1
  exact absurd hb1 (by simp)

theorem bucketOf_unrecognized (os : PathOS) (path : GoString) (info : FileInfo)
    (h : ¬ recognizedExt (Ext os info.Name)) : bucketOf os (.visit path info none) = none := by
  unfold recognizedExt at h
  simp only [not_or] at h
  obtain ⟨h1, h2, h3, h4, h5, h6⟩ := h
  simp only [bucketOf]
  split_ifs <;> simp_all

/-- C11: when `getFilePaths` returns its buckets, every regular file the walk visited whose name
ends in `.docx` is in the word-processor bucket. The case label `doc` matches no name at all:
`filepath.Ext` returns the empty string or a string that starts with a dot, never `doc`.
Hence a file whose name ends in `.doc` has the extension `.doc`, which no label matches, and
like every entry with an unrecognized extension its path is appended to no bucket (it is in
none of the three, the walk visiting no path twice). -/
theorem doc_label_matches_no_file (os : PathOS) (hsep : separatorsAreSlashes os)
    (folderPath : GoString) (root : FsNode) (xls doc ppt : List GoString)
    (h : getFilePaths os folderPath root = .ok (xls, doc, ppt)) :
    (∀ path info err, WalkEntry.visit path info err ∈ walkEntries os folderPath root →
      info.IsDir = false → ".docx".toList <:+ info.Name → path ∈ doc) ∧
    (∀ name : GoString, Ext os name ≠ "doc".toList ∧
      (Ext os name = [] ∨ ∃ rest, Ext os name = '.' :: rest)) ∧
    (∀ path info err, WalkEntry.visit path info err ∈ walkEntries os folderPath root →
      info.IsDir = false → ".doc".toList <:+ info.Name →
      Ext os info.Name = ".doc".toList ∧
      bucketOf os (.visit path info none) = none ∧
      (((walkEntries os folderPath root).map WalkEntry.path).Nodup →
        path ∉ xls ∧ path ∉ doc ∧ path ∉ ppt)) ∧
    (∀ path info err, WalkEntry.visit path info err ∈ walkEntries os folderPath root →
      ¬ recognizedExt (Ext os info.Name) →
      bucketOf os (.visit path info none) = none ∧
      (((walkEntries os folderPath root).map WalkEntry.path).Nodup →
        path ∉ xls ∧ path ∉ doc ∧ path ∉ ppt)) := by
  obtain ⟨hclean, hx, hd, hp⟩ := getFilePaths_ok os folderPath root xls doc ppt h
  have herr : ∀ path info err, WalkEntry.visit path info err ∈ walkEntries os folderPath root →
      err = none := by
    intro path info err hmem
    have := hclean _ hmem
    cases err with
    | none => rfl
    | some e => simp [WalkEntry.clean] at this
  have hunrec : ∀ path info err, WalkEntry.visit path info err ∈ walkEntries os folderPath root →
      ¬ recognizedExt (Ext os info.Name) →
      bucketOf os (.visit path info none) = none ∧
      (((walkEntries os folderPath root).map WalkEntry.path).Nodup →
        path ∉ xls ∧ path ∉ doc ∧ path ∉ ppt) := by
    intro path info err hmem hun
    have he := herr path info err hmem
    subst he
    have hb := bucketOf_unrecognized os path info hun
    refine ⟨hb, fun hnd => ⟨?_, ?_, ?_⟩⟩
    · rw [hx]; exact not_mem_pathsOf_of_unbucketed os _ _ _ hmem hb hnd
    · rw [hd]; exact not_mem_pathsOf_of_unbucketed os _ _ _ hmem hb hnd
    · rw [hp]; exact not_mem_pathsOf_of_unbucketed os _ _ _ hmem hb hnd
  refine ⟨?_, fun name => ⟨Ext_ne_doc os name, Ext_nil_or_dot os name⟩, ?_, hunrec⟩
  · intro path info err hmem hdir hsuf
    have he := herr path info err hmem
    subst he
    have hext := Ext_docx os hsep info.Name hsuf
    have hb : bucketOf os (.visit path info none) = some .wordProcessor := by
      simp only [bucketOf, hdir, hext, Bool.not_false, Bool.true_or, if_true]
      decide
    rw [hd]
    exact (mem_pathsOf os _ _ _).mpr ⟨_, hmem, hb, rfl⟩
  · intro path info err hmem hdir hsuf
    have hext := Ext_doc os hsep info.Name hsuf
    have hun : ¬ recognizedExt (Ext os info.Name) := by
      rw [hext]
      unfold recognizedExt
      decide
    exact ⟨hext, hunrec path info err hmem hun⟩

theorem doc_label_matches_no_file_witness :
    separatorsAreSlashes slashOS ∧
    getFilePaths slashOS "root".toList wordTree = .ok ([], ["root/a.docx".toList], []) ∧
    "root/a.docx".toList ∈ ["root/a.docx".toList] ∧
    bucketOf slashOS (.visit "root/b.doc".toList ⟨"b.doc".toList, false⟩ none) = none :=
  have hsep : separatorsAreSlashes slashOS := fun c hc => Or.inl (by simpa [slashOS] using hc)
  have h := doc_label_matches_no_file slashOS hsep "root".toList wordTree
    [] ["root/a.docx".toList] [] rfl
  ⟨hsep, rfl,
    h.1 "root/a.docx".toList ⟨"a.docx".toList, false⟩ none
      (List.Mem.tail _ (List.Mem.head _)) rfl ⟨"a".toList, rfl⟩,
    (h.2.2.1 "root/b.doc".toList ⟨"b.doc".toList, false⟩ none
      (List.Mem.tail _ (List.Mem.tail _ (List.Mem.head _))) rfl ⟨"b".toList, rfl⟩).2.1⟩

theorem ErrChan.sendAll_of_room (c : ErrChan) (sends : List GoError)
    (h : c.buf.length + sends.length ≤ c.cap) :
    c.sendAll sends = some ⟨c.cap, c.buf ++ sends⟩ := by
  induction sends generalizing c with
  | nil => simp [ErrChan.sendAll]
  | cons err rest ih =>
    have hlt : c.buf.length < c.cap := by
      simp only [List.length_cons] at h
      omega
    have hrest := ih ⟨c.cap, c.buf ++ [err]⟩ (by
      simp only [List.length_append, List.length_cons, List.length_nil] at h ⊢
      omega)
    simp only [ErrChan.sendAll, ErrChan.send, hlt, if_true]
    simpa using hrest

theorem ErrChan.send_blocks_when_full (c : ErrChan) (err : GoError) (rest : List GoError)
    (h : c.buf.length = c.cap) : c.sendAll (err :: rest) = none := by
  simp [ErrChan.sendAll, ErrChan.send, h]

theorem filterMap_id_three_length (a b c : Option GoError) :
    ([a, b, c].filterMap id).length = sendCount a + sendCount b + sendCount c := by
  cases a <;> cases b <;> cases c <;> rfl

theorem sendCount_le_one (r : Option GoError) : sendCount r ≤ 1 := by
  cases r <;> simp [sendCount]

theorem sendCount_convertExcelFileToPdf (os : PathOS) (abs : GoString → Except GoError GoString)
    (h : ExcelHost) (files : List GoString) (ig : GoString) :
    sendCount (convertExcelFileToPdf os abs h files ig).1 ≤ (if files = [] then 0 else 1) := by
  cases files with
  | nil => simp [convertExcelFileToPdf, sendCount]
  | cons f fs => simpa using sendCount_le_one _

theorem sendCount_convertWordFileToPdf (os : PathOS) (abs : GoString → Except GoError GoString)
    (h : WordHost) (files : List GoString) :
    sendCount (convertWordFileToPdf os abs h files).1 ≤ (if files = [] then 0 else 1) := by
  cases files with
  | nil => simp [convertWordFileToPdf, sendCount]
  | cons f fs => simpa using sendCount_le_one _

theorem sendCount_convertPptFileToPdf (os : PathOS) (abs : GoString → Except GoError GoString)
    (h : PowerPointHost) (files : List GoString) :
    sendCount (convertPptFileToPdf os abs h files).1 ≤ (if files = [] then 0 else 1) := by
  cases files with
  | nil => simp [convertPptFileToPdf, sendCount]
  | cons f fs => simpa using sendCount_le_one _

theorem nonEmptyBuckets_le_capacity (xlsPaths docPaths pptPaths : List GoString) :
    nonEmptyBuckets xlsPaths docPaths pptPaths ≤ errChanCapacity xlsPaths docPaths pptPaths := by
  unfold nonEmptyBuckets errChanCapacity
  cases xlsPaths <;> cases docPaths <;> cases pptPaths <;> simp <;> omega

theorem main_errChan (os : PathOS) (abs : GoString → Except GoError GoString)
    (fs : GoString → FsNode) (excel : ExcelHost) (word : WordHost) (ppt : PowerPointHost)
    (osArgs : List GoString) (ignore targetPath : GoString) (rest : List GoString)
    (xlsPaths docPaths pptPaths : List GoString) (hargs : 2 ≤ osArgs.length)
    (hget : getFilePaths os targetPath (fs targetPath) = .ok (xlsPaths, docPaths, pptPaths))
    (hne : ¬ (xlsPaths.length = 0 ∧ docPaths.length = 0 ∧ pptPaths.length = 0)) :
    (main os abs fs excel word ppt osArgs ignore (targetPath :: rest)).errChan =
      goroutineSends os abs excel word ppt xlsPaths docPaths pptPaths ignore := by
  have h2 : ¬ osArgs.length < 2 := by omega
  simp only [main, h2, hget, hne, if_false, goroutineSends]

/-- C12: when `main` reaches the goroutines (the buckets are not all empty), a goroutine sends at
most one error and none for an empty bucket, so the number of sends is at most the number of
non-empty buckets, which is at most `len(xls)+len(doc)+len(ppt)`, the capacity of `errChan`.
Hence, in whatever order the sends happen, each of them finds room in the buffer although
nothing is received before `wg.Wait()` returns: no send blocks. -/
theorem errChan_sends_never_block (os : PathOS) (abs : GoString → Except GoError GoString)
    (fs : GoString → FsNode) (excel : ExcelHost) (word : WordHost) (ppt : PowerPointHost)
    (osArgs : List GoString) (ignore targetPath : GoString) (rest : List GoString)
    (xlsPaths docPaths pptPaths : List GoString) (sends : List GoError)
    (hargs : 2 ≤ osArgs.length)
    (hget : getFilePaths os targetPath (fs targetPath) = .ok (xlsPaths, docPaths, pptPaths))
    (hne : ¬ (xlsPaths.length = 0 ∧ docPaths.length = 0 ∧ pptPaths.length = 0))
    (hperm : sends.Perm (main os abs fs excel word ppt osArgs ignore (targetPath :: rest)).errChan) :
    (main os abs fs excel word ppt osArgs ignore (targetPath :: rest)).errChan =
      goroutineSends os abs excel word ppt xlsPaths docPaths pptPaths ignore ∧
    sendCount (convertExcelFileToPdf os abs excel xlsPaths ignore).1
      ≤ (if xlsPaths = [] then 0 else 1) ∧
    sendCount (convertWordFileToPdf os abs word docPaths).1 ≤ (if docPaths = [] then 0 else 1) ∧
    sendCount (convertPptFileToPdf os abs ppt pptPaths).1 ≤ (if pptPaths = [] then 0 else 1) ∧
    sends.length = sendCount (convertExcelFileToPdf os abs excel xlsPaths ignore).1 +
      sendCount (convertWordFileToPdf os abs word docPaths).1 +
      sendCount (convertPptFileToPdf os abs ppt pptPaths).1 ∧
    sends.length ≤ nonEmptyBuckets xlsPaths docPaths pptPaths ∧
    nonEmptyBuckets xlsPaths docPaths pptPaths ≤ errChanCapacity xlsPaths docPaths pptPaths ∧
    (makeChan (errChanCapacity xlsPaths docPaths pptPaths)).sendAll sends =
      some ⟨errChanCapacity xlsPaths docPaths pptPaths, sends⟩ := by
  have hmain := main_errChan os abs fs excel word ppt osArgs ignore targetPath rest
    xlsPaths docPaths pptPaths hargs hget hne
  have h1 := sendCount_convertExcelFileToPdf os abs excel xlsPaths ignore
  have h2 := sendCount_convertWordFileToPdf os abs word docPaths
  have h3 := sendCount_convertPptFileToPdf os abs ppt pptPaths
  have hcap := nonEmptyBuckets_le_capacity xlsPaths docPaths pptPaths
  have hlen : sends.length = sendCount (convertExcelFileToPdf os abs excel xlsPaths ignore).1 +
      sendCount (convertWordFileToPdf os abs word docPaths).1 +
      sendCount (convertPptFileToPdf os abs ppt pptPaths).1 := by
    rw [hperm.length_eq, hmain, goroutineSends, filterMap_id_three_length]
  have hle : sends.length ≤ nonEmptyBuckets xlsPaths docPaths pptPaths := by
    rw [hlen]
    unfold nonEmptyBuckets
    omega
  refine ⟨hmain, h1, h2, h3, hlen, hle, hcap, ?_⟩
  have hsend := ErrChan.sendAll_of_room (makeChan (errChanCapacity xlsPaths docPaths pptPaths)) sends
    (by simp only [makeChan, List.length_nil]; omega)
  simpa [makeChan] using hsend

theorem errChan_sends_never_block_witness :
    getFilePaths slashOS "docs".toList mixedTree
      = .ok (["docs/b.xlsx".toList], ["docs/a.docx".toList], ["docs/c.pptx".toList]) ∧
    (main slashOS (absIn "/w".toList) (fun _ => mixedTree) excelQuitFails wordQuitFails pptQuitFails
      ["Office2PDF.exe".toList, "docs".toList] "_".toList ["docs".toList]).errChan =
      [.join [.host "excel cannot quit"], .join [.host "word cannot quit"],
       .join [.host "powerpoint cannot quit"]] ∧
    (makeChan (errChanCapacity ["docs/b.xlsx".toList] ["docs/a.docx".toList]
        ["docs/c.pptx".toList])).sendAll
      [.join [.host "powerpoint cannot quit"], .join [.host "excel cannot quit"],
       .join [.host "word cannot quit"]] =
      some ⟨errChanCapacity ["docs/b.xlsx".toList] ["docs/a.docx".toList] ["docs/c.pptx".toList],
        [.join [.host "powerpoint cannot quit"], .join [.host "excel cannot quit"],
         .join [.host "word cannot quit"]]⟩ ∧
    (makeChan 2).sendAll
      [.join [.host "powerpoint cannot quit"], .join [.host "excel cannot quit"],
       .join [.host "word cannot quit"]] = none :=
  ⟨rfl, rfl,
    (errChan_sends_never_block slashOS (absIn "/w".toList) (fun _ => mixedTree) excelQuitFails
      wordQuitFails pptQuitFails ["Office2PDF.exe".toList, "docs".toList] "_".toList
      "docs".toList [] ["docs/b.xlsx".toList] ["docs/a.docx".toList] ["docs/c.pptx".toList]
      [.join [.host "powerpoint cannot quit"], .join [.host "excel cannot quit"],
       .join [.host "word cannot quit"]]
      (by decide) rfl (by decide)
      (@List.perm_append_comm GoError
        [GoError.join [.host "powerpoint cannot quit"]]
        [GoError.join [.host "excel cannot quit"],
          GoError.join [.host "word cannot quit"]])).2.2.2.2.2.2.2,
    rfl⟩

theorem selectSucceeds_of_mem_enumFrom (wb : Workbook) (iw : Nat × Worksheet)
    (h : iw ∈ wb.sheets.enumFrom 1) : selectSucceeds wb iw.1 = iw.2.selectErr.isNone := by
  obtain ⟨i, ws⟩ := iw
  obtain ⟨hle, hget⟩ := List.mk_mem_enumFrom_iff_le_and_getElem?_sub.mp h
  simp only [selectSucceeds, List.get?_eq_getElem?, hget]
  simp [hle]

theorem foldl_extendSelection_mem (l sel : List Nat) (j : Nat) (h : j ∈ sel) :
    j ∈ l.foldl extendSelection sel := by
  induction l generalizing sel with
  | nil => exact h
  | cons i l ih =>
    apply ih
    unfold extendSelection
    split_ifs
    · exact h
    · exact List.mem_append_left _ h

theorem selectSheets_hostAfter (wb : Workbook) (ig : GoString) (i : Nat) (rest : List Worksheet)
    (s : SheetHost)
    (hlink : ∀ iw ∈ rest.enumFrom i, selectSucceeds wb iw.1 = iw.2.selectErr.isNone)
    (hok : (selectSheets ig i rest).1 = none) :
    (selectSheets ig i rest).2.1.foldl (SheetHost.step wb) s =
      ⟨((includedFrom ig i rest).map Prod.fst).foldl extendSelection s.selected, s.written⟩ := by
  induction rest generalizing i s with
  | nil => simp [selectSheets, includedFrom]
  | cons ws rest ih =>
    have hrest : ∀ iw ∈ rest.enumFrom (i + 1), selectSucceeds wb iw.1 = iw.2.selectErr.isNone :=
      fun iw hiw => hlink iw (by simp [List.enumFrom_cons, hiw])
    unfold selectSheets at hok ⊢
    cases hpre : startsWith ws.Name ig with
    | true =>
      simp only [hpre, if_true] at hok
      rw [includedFrom_cons_skip ig i ws rest hpre]
      simp only [hpre, if_true, List.foldl_append, List.foldl_cons, List.foldl_nil,
        SheetHost.step]
      exact ih (i + 1) s hrest hok
    | false =>
      rw [includedFrom_cons_keep ig i ws rest hpre]
      cases hsel : ws.selectErr with
      | some err => simp [hpre, hsel] at hok
      | none =>
        simp only [hpre, hsel, Bool.false_eq_true, if_false] at hok
        have hsucc : selectSucceeds wb i = true := by
          have := hlink (i, ws) (by simp [List.enumFrom_cons])
          simpa [hsel] using this
        simp only [hpre, hsel, Bool.false_eq_true, if_false, List.foldl_append, List.foldl_cons,
          List.foldl_nil, SheetHost.step, hsucc, and_self, if_true, List.map_cons]
        exact ih (i + 1) _ hrest hok

theorem selectSheets_deferred_hostAfter (wb : Workbook) (ig : GoString) (i : Nat)
    (rest : List Worksheet) (s : SheetHost) :
    (selectSheets ig i rest).2.2.foldl (SheetHost.step wb) s = s := by
  induction rest generalizing i s with
  | nil => simp [selectSheets]
  | cons ws rest ih =>
    unfold selectSheets
    cases hpre : startsWith ws.Name ig with
    | true => simp [List.foldl_append, SheetHost.step, ih]
    | false => cases hsel : ws.selectErr <;> simp [List.foldl_append, SheetHost.step, ih]

theorem markSavedAndClose_hostAfter (wb : Workbook) (s : SheetHost) :
    (markSavedAndClose wb).2.foldl (SheetHost.step wb) s = s := by
  unfold markSavedAndClose
  cases wb.savedErr <;> cases wb.closeErr <;> simp [SheetHost.step]

/-- With a non-empty exclusion prefix, when the host answers every call, the PDF that
`convertXlsxToPdf` has the host write renders the sheets the host had selected when it opened
the workbook, extended by the sheets whose name does not start with `ig`, in ordinal order:
the sheets selected at the start are never taken out of the selection. -/
theorem convertXlsxToPdf_writes_initial_and_unprefixed (h : ExcelHost)
    (xlPath pdfFilePath ig : GoString) (wb : Workbook) (selected0 : List Nat) (hig : ig ≠ [])
    (hw : h.workbooksErr = none) (ho : h.openWorkbook xlPath = .ok wb)
    (hws : wb.worksheetsErr = none) (hact : wb.activeSheetErr = none)
    (hsel : ∀ iw ∈ includedSheets ig wb.sheets, iw.2.selectErr = none)
    (hexp : wb.sheetExportErr = none) :
    (hostAfter wb selected0 (convertXlsxToPdf h xlPath pdfFilePath ig).2).written =
      [(pdfFilePath, ((includedSheets ig wb.sheets).map Prod.fst).foldl extendSelection selected0)] ∧
    ∀ j ∈ selected0, j ∈ ((includedSheets ig wb.sheets).map Prod.fst).foldl extendSelection selected0 := by
  refine ⟨?_, fun j hj => foldl_extendSelection_mem _ _ j hj⟩
  have hl := selectSheets_succeeds ig 1 wb.sheets hsel
  have hloop := fun s => selectSheets_hostAfter wb ig 1 wb.sheets s
    (fun iw hiw => selectSucceeds_of_mem_enumFrom wb iw hiw) hl
  have hdef := selectSheets_deferred_hostAfter wb ig 1 wb.sheets
  have hm := markSavedAndClose_hostAfter wb
  have hinc : includedSheets ig wb.sheets = includedFrom ig 1 wb.sheets := rfl
  simp only [hostAfter, convertXlsxToPdf, convertXlsxToPdfBody, Body.run, hw, ho, hig, if_false,
    hws, hact, hl, hexp, hinc, List.foldl_append, List.foldl_cons, List.foldl_nil]
  simp [SheetHost.step, xlExportArgs, hloop, hdef, hm, hexp]

/-- C5 (evaluation at the failing input): the workbook has the two sheets _A and _B, the prefix is
`_` and the host answers every call. `convertXlsxToPdf` issues no `Select` call, then issues
the export on the active sheet and returns nil: the PDF renders the sheets the host had
selected when it opened the workbook, whichever they are, and every sheet of this workbook
has a name that starts with `_`. For the workbook Data, _Hidden, Summary the PDF renders
Data, _Hidden and Summary when _Hidden was the sheet selected at the start, and Data and
Summary when Data was. -/
theorem convertXlsxToPdf_exports_prefixed_sheet :
    (convertXlsxToPdf excelAllPrefixed "/w/book.xlsx".toList "/w/book.pdf".toList "_".toList).1
      = none ∧
    selectedOrdinals
      (convertXlsxToPdf excelAllPrefixed "/w/book.xlsx".toList "/w/book.pdf".toList "_".toList).2
      = [] ∧
    activeSheetExport "/w/book.pdf".toList ∈
      (convertXlsxToPdf excelAllPrefixed "/w/book.xlsx".toList "/w/book.pdf".toList "_".toList).2 ∧
    (∀ selected0, (hostAfter (okWorkbook ["_A".toList, "_B".toList]) selected0
      (convertXlsxToPdf excelAllPrefixed "/w/book.xlsx".toList "/w/book.pdf".toList
        "_".toList).2).written = [("/w/book.pdf".toList, selected0)]) ∧
    prefixedOrdinals "_".toList (okWorkbook ["_A".toList, "_B".toList]).sheets = [1, 2] ∧
    (hostAfter (okWorkbook ["_A".toList, "_B".toList]) [1]
      (convertXlsxToPdf excelAllPrefixed "/w/book.xlsx".toList "/w/book.pdf".toList
        "_".toList).2).written = [("/w/book.pdf".toList, [1])] ∧
    prefixedOrdinals "_".toList
      (okWorkbook ["Data".toList, "_Hidden".toList, "Summary".toList]).sheets = [2] ∧
    (hostAfter (okWorkbook ["Data".toList, "_Hidden".toList, "Summary".toList]) [2]
      (convertXlsxToPdf excelOk "/w/book.xlsx".toList "/w/book.pdf".toList "_".toList).2).written
      = [("/w/book.pdf".toList, [2, 1, 3])] ∧
    (hostAfter (okWorkbook ["Data".toList, "_Hidden".toList, "Summary".toList]) [1]
      (convertXlsxToPdf excelOk "/w/book.xlsx".toList "/w/book.pdf".toList "_".toList).2).written
      = [("/w/book.pdf".toList, [1, 3])] := by
  refine ⟨rfl, by decide, by decide, fun selected0 => rfl, by decide, by decide, by decide,
    by decide, by decide⟩

end Office2PDF
